import Mathlib

/-!
Selection and range manager of the editor core: a shallow embedding of
`src/lib/core/selection.js`.

The JavaScript object graph is flattened into one explicit state `St`:

* the document is a heap `Dom` of nodes addressed by `NodeId`;
  `createElement` allocates the next free id;
* the host's live selection is `St.selection` (`none` when the host hands out
  no selection object at all);
* the shared variable bag (`_variable._range`, `_variable._selectionNode`)
  is the pair `St.range`, `St.selectionNode`;
* the toolbar registry (`commandMap`, `activePlugins`) is an association list;
* every call that leaves this file (host focus, host range and selection
  calls, `console.warn`, plugin hooks, component selection, event
  notifications) is appended to `St.log`.

A JavaScript exception is a value `Except.error`; a method returns the pair of
its outcome and the state it leaves behind, so that the effects performed
before a `throw` stay visible to the `catch` that handles it.

What this file only reads is gathered in `Env`: the elements and options fixed
by the constructor, the set of active plugins, and the collaborators defined
elsewhere (the helpers imported from `../util`, the component resolver, the
file-manager pattern).

The host is modelled as far as the source relies on it:

* an offset handed to `setStart` or `setEnd` is an integer, which the host
  reads as an `unsigned long` (modulo 2^32); the call throws when that number
  exceeds the length of the node (UTF-16 code units of a text node, children
  of an element);
* a range keeps its start before its end: `setStart` behind the end, or in
  another tree, moves the end along, and `setEnd` in front of the start, or
  in another tree, moves the start along;
* `addRange` stores the range it is given, `getRangeAt(0)` returns the first
  stored range;
* host `focus()` calls are recorded and do not move the live selection;
* `string.length` counts UTF-16 code units.
-/

namespace Selection

/-! ## Document model -/

abbrev NodeId := Nat

/-- Node kinds told apart by the source: elements (`nodeType === 1`) and text
nodes (`nodeType === 3`). -/
inductive NodeKind
  | element
  | text
deriving DecidableEq, Repr

structure DomNode where
  kind : NodeKind
  nodeName : String
  data : String
  childNodes : List NodeId
  parentNode : Option NodeId

/-- A host range: its two boundary points. -/
structure Range where
  startContainer : NodeId
  startOffset : Nat
  endContainer : NodeId
  endOffset : Nat
deriving DecidableEq, Repr

/-- The host's live selection object. -/
structure Sel where
  ranges : List Range
  anchorNode : Option NodeId
  extentNode : Option NodeId
deriving DecidableEq, Repr

inductive Err
  | indexSize
  | typeError
deriving DecidableEq, Repr

/-- Descriptor returned by the component resolver. -/
structure FileComponentInfo where
  target : NodeId
  pluginName : String
deriving DecidableEq, Repr

/-- Calls that leave this file, in the order they are made. -/
inductive Call
  | focus (n : NodeId)
  | warn (e : Err)
  | createRange
  | setStart (n : NodeId) (off : Int)
  | setEnd (n : NodeId) (off : Int)
  | removeAllRanges
  | addRange (r : Range)
  | selectComponent (target : NodeId) (pluginName : String)
  | pluginActive (key : String)
  | applyTagEffects
  | toggleToolbarBalloon
deriving DecidableEq, Repr

/-- A toolbar element: its class list and its `disabled` attribute. -/
structure ToolEl where
  classes : List String
  disabled : Option String
deriving DecidableEq, Repr

/-- The node heap of the document and its allocation counter. -/
structure Dom where
  nodes : NodeId → DomNode
  next : NodeId

structure St where
  dom : Dom
  selection : Option Sel
  range : Option Range
  selectionNode : Option NodeId
  commandMap : List (String × ToolEl)
  log : List Call

/-- What the methods read and never write. -/
structure Env where
  document : NodeId
  wysiwyg : NodeId
  frameHidden : Bool
  iframe : Bool
  isBalloon : Bool
  activePlugins : List String
  hostHasExtentNode : Bool
  isWysiwygDiv : Dom → NodeId → Bool
  getParentElement : Dom → Option NodeId → String → Option NodeId
  getChildElement : Dom → Option NodeId → (NodeId → Bool) → Bool → Option NodeId
  isMediaComponent : Dom → NodeId → Bool
  getFileComponent : Dom → Option NodeId → Option FileComponentInfo
  fileRegExp : String → Bool

def St.record (st : St) (c : Call) : St :=
  { st with log := st.log ++ [c] }

/-! ## Host primitives -/

def isElement (d : Dom) (n : NodeId) : Bool :=
  (d.nodes n).kind == NodeKind.element

def childNodes (d : Dom) (n : NodeId) : List NodeId :=
  (d.nodes n).childNodes

def firstChild (d : Dom) (n : NodeId) : Option NodeId :=
  (childNodes d n).head?

def firstElementChild (d : Dom) (n : NodeId) : Option NodeId :=
  (childNodes d n).find? (isElement d)

def lastElementChild (d : Dom) (n : NodeId) : Option NodeId :=
  (childNodes d n).reverse.find? (isElement d)

/-- UTF-16 code units of one character: two beyond the basic plane. -/
def utf16Units (c : Char) : Nat :=
  if c.toNat < 65536 then 1 else 2

/-- The value of `string.length`: the number of UTF-16 code units. -/
def utf16Length (s : String) : Nat :=
  (s.data.map utf16Units).sum

/-- Length of `textContent`, by descent bounded by `fuel`. -/
def textLenAux (nodes : NodeId → DomNode) : Nat → NodeId → Nat
  | 0, _ => 0
  | fuel + 1, n =>
    match (nodes n).kind with
    | NodeKind.text => utf16Length (nodes n).data
    | NodeKind.element => ((nodes n).childNodes.map (textLenAux nodes fuel)).sum

/-- The value of `node.textContent.length`. -/
def textLength (d : Dom) (n : NodeId) : Nat :=
  textLenAux d.nodes d.next n

/-- The host's length of a node: code units of a text node, children of an
element. -/
def nodeLength (d : Dom) (n : NodeId) : Nat :=
  match (d.nodes n).kind with
  | NodeKind.text => utf16Length (d.nodes n).data
  | NodeKind.element => (d.nodes n).childNodes.length

/-- The host accepts a boundary point when the offset is within the node. -/
def accepts (d : Dom) (n : NodeId) (off : Nat) : Bool :=
  decide (off ≤ nodeLength d n)

/-- The host reads an offset argument as an `unsigned long`: the number
modulo 2^32. -/
def hostOffset (off : Int) : Nat :=
  (off % 4294967296).toNat

/-- Host call `document.createElement(name)`. -/
def createElement (d : Dom) (name : String) : NodeId × Dom :=
  (d.next,
   { nodes := Function.update d.nodes d.next (DomNode.mk NodeKind.element name "" [] none)
     next := d.next + 1 })

/-- Overwrite the parent link of one node. -/
def setParent (d : Dom) (child parent : NodeId) : Dom :=
  { d with
    nodes := Function.update d.nodes child ({ (d.nodes child) with parentNode := some parent }) }

/-- Overwrite the child list of one node. -/
def setChildNodes (d : Dom) (parent : NodeId) (cs : List NodeId) : Dom :=
  { d with
    nodes := Function.update d.nodes parent ({ (d.nodes parent) with childNodes := cs }) }

/-- Host call `parent.appendChild(child)` for a detached `child`. -/
def appendChild (d : Dom) (parent child : NodeId) : Dom :=
  let d1 := setParent d child parent
  setChildNodes d1 parent (childNodes d1 parent ++ [child])

/-- Position of `child` right before `ref` in a child list; at the end when
`ref` does not occur. -/
def insertAt (child ref : NodeId) : List NodeId → List NodeId
  | [] => [child]
  | c :: cs => if c = ref then child :: c :: cs else c :: insertAt child ref cs

/-- Host call `parent.insertBefore(child, ref)` for a detached `child`; a null
`ref` appends. -/
def insertBefore (d : Dom) (parent child : NodeId) (ref : Option NodeId) : Dom :=
  match ref with
  | none => appendChild d parent child
  | some r =>
    let d1 := setParent d child parent
    setChildNodes d1 parent (insertAt child r (childNodes d1 parent))

/-- The two statements `el = util.createElement('P'); el.innerHTML = '<br>'`:
a fresh paragraph whose only child is a fresh line break. -/
def createParagraphWithBreak (d : Dom) : NodeId × NodeId × Dom :=
  let (p, d1) := createElement d "P"
  let (br, d2) := createElement d1 "BR"
  (p, br, appendChild d2 p br)

/-- Host call `document.createRange()`. -/
def createRange (env : Env) (st : St) : Range × St :=
  ({ startContainer := env.document, startOffset := 0,
     endContainer := env.document, endOffset := 0 }, st.record Call.createRange)

/-- Host attribute `range.collapsed`. -/
def Range.collapsed (r : Range) : Bool :=
  r.startContainer == r.endContainer && r.startOffset == r.endOffset

/-- Inclusive ancestors of a node, nearest first. -/
def ancestors (nodes : NodeId → DomNode) : Nat → NodeId → List NodeId
  | 0, n => [n]
  | fuel + 1, n =>
    match (nodes n).parentNode with
    | none => [n]
    | some p => n :: ancestors nodes fuel p

/-- The root of the tree a node lives in. -/
def rootOf (d : Dom) (n : NodeId) : NodeId :=
  (ancestors d.nodes d.next n).getLast?.getD n

/-- Index of a node in a child list. -/
def indexIn (n : NodeId) : List NodeId → Nat
  | [] => 0
  | c :: cs => if c = n then 0 else indexIn n cs + 1

/-- Child indices leading from the root down to a node. -/
def pathTo (nodes : NodeId → DomNode) : Nat → NodeId → List Nat
  | 0, _ => []
  | fuel + 1, n =>
    match (nodes n).parentNode with
    | none => []
    | some p => pathTo nodes fuel p ++ [indexIn n (nodes p).childNodes]

/-- Lexicographic order on index lists, a list coming before its extensions. -/
def lexLt : List Nat → List Nat → Bool
  | [], [] => false
  | [], _ :: _ => true
  | _ :: _, [] => false
  | a :: as, b :: bs => decide (a < b) || (a == b && lexLt as bs)

/-- The host's order of boundary points of one tree: `(n1, o1)` is before
`(n2, o2)`. A boundary point `(n, o)` sits in front of the child of `n` with
index `o`, after that child's predecessors and before the inside of that
child. -/
def bpBefore (d : Dom) (n1 : NodeId) (o1 : Nat) (n2 : NodeId) (o2 : Nat) : Bool :=
  lexLt (pathTo d.nodes d.next n1 ++ [o1]) (pathTo d.nodes d.next n2 ++ [o2])

/-- Host call `range.setStart(node, offset)`: an offset beyond the node throws;
a start in another tree or after the end moves the end along. -/
def rangeSetStart (st : St) (r : Range) (n : NodeId) (off : Int) : Except Err Range × St :=
  let st1 := st.record (Call.setStart n off)
  if accepts st.dom n (hostOffset off) then
    if rootOf st.dom r.startContainer != rootOf st.dom n
        || bpBefore st.dom r.endContainer r.endOffset n (hostOffset off) then
      (Except.ok ⟨n, hostOffset off, n, hostOffset off⟩, st1)
    else (Except.ok { r with startContainer := n, startOffset := hostOffset off }, st1)
  else (Except.error Err.indexSize, st1)

/-- Host call `range.setEnd(node, offset)`: an offset beyond the node throws;
an end in another tree or before the start moves the start along. -/
def rangeSetEnd (st : St) (r : Range) (n : NodeId) (off : Int) : Except Err Range × St :=
  let st1 := st.record (Call.setEnd n off)
  if accepts st.dom n (hostOffset off) then
    if rootOf st.dom r.startContainer != rootOf st.dom n
        || bpBefore st.dom n (hostOffset off) r.startContainer r.startOffset then
      (Except.ok ⟨n, hostOffset off, n, hostOffset off⟩, st1)
    else (Except.ok { r with endContainer := n, endOffset := hostOffset off }, st1)
  else (Except.error Err.indexSize, st1)

/-- Host attribute `range.commonAncestorContainer`. -/
def Range.commonAncestorContainer (d : Dom) (r : Range) : NodeId :=
  let up := ancestors d.nodes d.next r.endContainer
  ((ancestors d.nodes d.next r.startContainer).find? (fun a => up.contains a)).getD
    r.startContainer

/-- Host call `selection.removeAllRanges()`. -/
def Sel.removeAllRanges (_s : Sel) : Sel :=
  { ranges := [], anchorNode := none, extentNode := none }

/-- Host call `selection.addRange(range)`; a host without the `extentNode`
extension keeps that field empty. -/
def Sel.addRange (s : Sel) (r : Range) (extent : Bool) : Sel :=
  { ranges := s.ranges ++ [r],
    anchorNode := some r.startContainer,
    extentNode := if extent then some r.endContainer else none }

/-! ## Pattern tests of the source -/

def upperChars (s : String) : List Char :=
  s.data.map Char.toUpper

/-- Whether the characters of `pat` open the list `cs`. -/
def startsWith : List Char → List Char → Bool
  | [], _ => true
  | _ :: _, [] => false
  | p :: ps, c :: cs => p == c && startsWith ps cs

/-- Whether `pat` occurs as a contiguous run inside `cs`. -/
def hasRun (pat : List Char) : List Char → Bool
  | [] => startsWith pat []
  | c :: cs => startsWith pat (c :: cs) || hasRun pat cs

/-- The test `/FIGURE/i.test(name)`. -/
def testFIGURE (name : String) : Bool :=
  hasRun "FIGURE".data (upperChars name)

/-- The test `/^OUTDENT$/i.test(key)`. -/
def testOUTDENT (key : String) : Bool :=
  upperChars key == "OUTDENT".data

/-- The test `/^INDENT$/i.test(key)`. -/
def testINDENT (key : String) : Bool :=
  upperChars key == "INDENT".data

/-- The descent predicate `current.childNodes.length === 0 || current.nodeType === 3`. -/
def leafOrText (d : Dom) (current : NodeId) : Bool :=
  (childNodes d current).length == 0 || (d.nodes current).kind == NodeKind.text

/-! ## Toolbar registry -/

/-- Property read `commandMap[key]`. -/
def findEl : List (String × ToolEl) → String → Option ToolEl
  | [], _ => none
  | (k, el) :: rest, key => if key = k then some el else findEl rest key

/-- In-place change of the element stored under `key`. -/
def modifyEl : List (String × ToolEl) → String → (ToolEl → ToolEl) → List (String × ToolEl)
  | [], _, _ => []
  | (k, el) :: rest, key, f =>
    (k, if k = key then f el else el) :: modifyEl rest key f

/-- Modelled from the spec: `util.removeClass` of `../util`, which is not part
of the sources at hand; it strips the given marker from the class list. -/
def removeClass (el : ToolEl) (name : String) : ToolEl :=
  { el with classes := el.classes.filter (fun c => c != name) }

def setDisabled (el : ToolEl) : ToolEl :=
  { el with disabled := some "true" }

def removeDisabled (el : ToolEl) : ToolEl :=
  { el with disabled := none }

/-! ## The methods of `Selection.prototype` -/

/-- The element the default range is anchored in (source lines 270-275): the
first element child of the surface, or a fresh paragraph appended to it. -/
def defaultFocusEl (env : Env) (d : Dom) : NodeId × Dom :=
  match firstElementChild d env.wysiwyg with
  | some el => (el, d)
  | none =>
    let (p, _, d1) := createParagraphWithBreak d
    (p, appendChild d1 env.wysiwyg p)

/-- Source lines 264-283. -/
def _createDefaultRange (env : Env) (st : St) : Except Err Range × St :=
  let st1 := st.record (Call.focus env.wysiwyg)
  let (range, st2) := createRange env st1
  let (focusEl, d) := defaultFocusEl env st2.dom
  let st3 := { st2 with dom := d }
  match rangeSetStart st3 range focusEl 0 with
  | (Except.error e, st4) => (Except.error e, st4)
  | (Except.ok range1, st4) => rangeSetEnd st4 range1 focusEl 0

/-- Source lines 195-200: the shadow root's selection when there is one,
else the window's; either way the one live selection of the state. -/
def getSelection (st : St) : Option Sel :=
  st.selection

/-- Source lines 233-257. -/
def _editorRange (env : Env) (st : St) : Except Err Unit × St :=
  match getSelection st with
  | none => (Except.ok (), st)
  | some selection =>
    let (res, st1) :=
      match selection.ranges with
      | r :: _ => (Except.ok r, st)
      | [] => _createDefaultRange env st
    match res with
    | Except.error e => (Except.error e, st1)
    | Except.ok range =>
      let st2 := { st1 with range := some range }
      let selectionNode :=
        if range.collapsed then some (range.commonAncestorContainer st2.dom)
        else (selection.extentNode <|> selection.anchorNode)
      (Except.ok (), { st2 with selectionNode := selectionNode })

/-- The test `util.isWysiwygDiv(node)` on a possibly absent node; an absent
node is not the surface root. -/
def isWysiwygDivOpt (env : Env) (d : Dom) (node : Option NodeId) : Bool :=
  match node with
  | some n => env.isWysiwygDiv d n
  | none => false

/-- Source lines 209-224, the part of `getSelectionNode` that follows the
refresh of line 208. -/
def deriveSelectionNode (env : Env) (st : St) : Except Err (Option NodeId) × St :=
  match st.selectionNode with
  | some n => (Except.ok (some n), st)
  | none =>
    match env.getChildElement st.dom (firstChild st.dom env.wysiwyg) (leafOrText st.dom)
        false with
    | none =>
      match _editorRange env st with
      | (Except.error e, st1) => (Except.error e, st1)
      | (Except.ok _, st1) => (Except.ok st1.selectionNode, st1)
    | some selectionNode =>
      (Except.ok (some selectionNode), { st with selectionNode := some selectionNode })

/-- Source lines 206-227. -/
def getSelectionNode (env : Env) (st : St) : Except Err (Option NodeId) × St :=
  if isWysiwygDivOpt env st.dom st.selectionNode then
    match _editorRange env st with
    | (Except.error e, st1) => (Except.error e, st1)
    | (Except.ok _, st1) => deriveSelectionNode env st1
  else deriveSelectionNode env st

/-- Source lines 19-31. -/
def nativeFocus (env : Env) (st : St) : Except Err Unit × St :=
  match getSelectionNode env st with
  | (Except.error e, st1) => (Except.error e, st1)
  | (Except.ok node, st1) =>
    let st2 :=
      match env.getParentElement st1.dom node "figcaption" with
      | some caption => st1.record (Call.focus caption)
      | none => st1.record (Call.focus env.wysiwyg)
    _editorRange env st2

/-- The offset rewrite of source lines 105-106. -/
def clampOffset (d : Dom) (con : NodeId) (off : Int) : Int :=
  if off > textLength d con then textLength d con else off

/-- The `try` block of source lines 110-112. -/
def buildRange (st : St) (range : Range) (startCon : NodeId) (startOff : Int)
    (endCon : NodeId) (endOff : Int) : Except Err Range × St :=
  match rangeSetStart st range startCon startOff with
  | (Except.error e, st1) => (Except.error e, st1)
  | (Except.ok range1, st1) => rangeSetEnd st1 range1 endCon endOff

/-- Source lines 119-127, the part of `setRange` that follows a successful
range construction. The host selection always offers `removeAllRanges`, so
the guard of line 121 is taken. -/
def applyRange (env : Env) (st : St) (range : Range) : Except Err Unit × St :=
  match getSelection st with
  | none => (Except.error Err.typeError, st)
  | some selection =>
    let st1 := st.record Call.removeAllRanges
    let st2 := st1.record (Call.addRange range)
    let st3 := { st2 with
      selection := some (selection.removeAllRanges.addRange range env.hostHasExtentNode) }
    match _editorRange env st3 with
    | (Except.error e, st4) => (Except.error e, st4)
    | (Except.ok _, st4) =>
      if env.iframe then nativeFocus env st4 else (Except.ok (), st4)

/-- Source lines 102-130. -/
def setRange (env : Env) (st : St) (startCon : Option NodeId) (startOff : Int)
    (endCon : Option NodeId) (endOff : Int) : Except Err Unit × St :=
  match startCon, endCon with
  | some sc, some ec =>
    let startOff := clampOffset st.dom sc startOff
    let endOff := clampOffset st.dom ec endOff
    let (range, st1) := createRange env st
    match buildRange st1 range sc startOff ec endOff with
    | (Except.error error, st2) =>
      nativeFocus env (st2.record (Call.warn error))
    | (Except.ok range1, st2) => applyRange env st2 range1
  | _, _ => (Except.ok (), st)

/-- One turn of the loop of source lines 143-154. The plugin hook is outside
this file: its call is recorded. -/
def removeRangeStep (env : Env) (st : St) (key : String) : St :=
  if env.activePlugins.contains key then
    st.record (Call.pluginActive key)
  else if (findEl st.commandMap "OUTDENT").isSome && testOUTDENT key then
    { st with commandMap := modifyEl st.commandMap "OUTDENT" setDisabled }
  else if (findEl st.commandMap "INDENT").isSome && testINDENT key then
    { st with commandMap := modifyEl st.commandMap "INDENT" removeDisabled }
  else
    { st with commandMap := modifyEl st.commandMap key (fun el => removeClass el "active") }

/-- Source lines 135-157. The registry lists its own keys, so the `hasOwn`
guard of line 144 skips nothing. -/
def removeRange (env : Env) (st : St) : Except Err Unit × St :=
  let st1 := { st with range := none }
  let st2 := { st1 with selectionNode := none }
  match getSelection st2 with
  | none => (Except.error Err.typeError, st2)
  | some selection =>
    let st3 := { st2 with selection := some selection.removeAllRanges }
    let st4 := st3.record Call.removeAllRanges
    (Except.ok (), (st4.commandMap.map (fun e => e.1)).foldl (removeRangeStep env) st4)

/-- Source lines 163-168. -/
def getRange (env : Env) (st : St) : Except Err Range × St :=
  match st.range with
  | some range => (Except.ok range, st)
  | none => _createDefaultRange env st

/-- Source lines 291-302. -/
def _selectionVoid (env : Env) (st : St) (range : Range) : Bool :=
  let comm := range.commonAncestorContainer st.dom
  (env.isWysiwygDiv st.dom range.startContainer && env.isWysiwygDiv st.dom range.endContainer)
    || testFIGURE (st.dom.nodes comm).nodeName
    || env.fileRegExp (st.dom.nodes comm).nodeName
    || env.isMediaComponent st.dom comm

/-- Source lines 176-189. The value returned is `_variable._range`, which can
be absent. -/
def getRange_addLine (env : Env) (st : St) (range : Range) : Except Err (Option Range) × St :=
  if _selectionVoid env st range then
    let (op, _, d1) := createParagraphWithBreak st.dom
    let d2 := insertBefore d1 env.wysiwyg op (firstElementChild d1 env.wysiwyg)
    let st2 := { st with dom := d2 }
    match setRange env st2 (firstElementChild d2 op) 0 (firstElementChild d2 op) 1 with
    | (Except.error e, st3) => (Except.error e, st3)
    | (Except.ok _, st3) => (Except.ok st3.range, st3)
  else (Except.ok (some range), st)

/-- The `try` block of source lines 44-54. -/
def focusTry (env : Env) (st : St) : Except Err Unit × St :=
  match getRange env st with
  | (Except.error e, st1) => (Except.error e, st1)
  | (Except.ok range, st1) =>
    if range.startContainer == range.endContainer
        && env.isWysiwygDiv st1.dom range.startContainer then
      let (format, d2) := createElement st1.dom "P"
      let (br, d3) := createElement d2 "BR"
      let d4 := appendChild d3 format br
      let d5 := appendChild d4 env.wysiwyg format
      setRange env { st1 with dom := d5 } (some br) 0 (some br) 0
    else
      setRange env st1 (some range.startContainer) range.startOffset
        (some range.endContainer) range.endOffset

/-- Source lines 36-64. -/
def focus (env : Env) (st : St) : Except Err Unit × St :=
  if env.frameHidden then (Except.ok (), st)
  else
    let (res, st1) :=
      if env.iframe then nativeFocus env st
      else
        match focusTry env st with
        | (Except.error _, st2) => nativeFocus env st2
        | (Except.ok _, st2) => (Except.ok (), st2)
    match res with
    | Except.error e => (Except.error e, st1)
    | Except.ok _ =>
      let st3 := st1.record Call.applyTagEffects
      (Except.ok (), if env.isBalloon then st3.record Call.toggleToolbarBalloon else st3)

/-- Source lines 71-93. -/
def focusEdge (env : Env) (st : St) (focusEl : Option NodeId) : Except Err Unit × St :=
  let focusEl :=
    match focusEl with
    | some el => some el
    | none => lastElementChild st.dom env.wysiwyg
  match env.getFileComponent st.dom focusEl with
  | some fileComponentInfo =>
    (Except.ok (),
      st.record (Call.selectComponent fileComponentInfo.target fileComponentInfo.pluginName))
  | none =>
    match focusEl with
    | some el =>
      match env.getChildElement st.dom (some el) (leafOrText st.dom) true with
      | none => nativeFocus env st
      | some leaf =>
        setRange env st (some leaf) (textLength st.dom leaf) (some leaf) (textLength st.dom leaf)
    | none => focus env st

/-! ## A sample environment and sample documents

The worked examples below run the methods on small documents. Node 0 is the
document, node 1 the editable surface. -/

/-- Descendants of a node in document order, the node itself left out. -/
def descendants (nodes : NodeId → DomNode) : Nat → NodeId → List NodeId
  | 0, _ => []
  | fuel + 1, n => ((nodes n).childNodes.map (fun c => c :: descendants nodes fuel c)).flatten

/-- Modelled from the spec: `util.getChildElement` of `../util`, which is not
part of the sources at hand; it descends into the element and yields the first
(or, with `last`, the last) node that passes the test. -/
def sampleGetChildElement (d : Dom) (element : Option NodeId) (test : NodeId → Bool)
    (last : Bool) : Option NodeId :=
  match element with
  | none => none
  | some el =>
    let found := (descendants d.nodes d.next el).filter test
    if last then found.getLast? else found.head?

/-- Modelled from the spec: `util.getParentElement` of `../util`, which is not
part of the sources at hand; it finds the nearest ancestor of the given tag. -/
def sampleGetParentElement (d : Dom) (node : Option NodeId) (tag : String) : Option NodeId :=
  match node with
  | none => none
  | some n => (ancestors d.nodes d.next n).find? (fun a => upperChars (d.nodes a).nodeName
      == upperChars tag)

/-- A sample environment: the surface is node 1, the root test is identity
with the surface, no node is a component. -/
def sampleEnv : Env where
  document := 0
  wysiwyg := 1
  frameHidden := false
  iframe := false
  isBalloon := false
  activePlugins := []
  hostHasExtentNode := true
  isWysiwygDiv := fun _ n => n == 1
  getParentElement := sampleGetParentElement
  getChildElement := sampleGetChildElement
  isMediaComponent := fun _ _ => false
  getFileComponent := fun _ _ => none
  fileRegExp := fun _ => false

def blankNode : DomNode :=
  { kind := NodeKind.element, nodeName := "", data := "", childNodes := [], parentNode := none }

def mkElement (name : String) (cs : List NodeId) (parent : Option NodeId) : DomNode :=
  { kind := NodeKind.element, nodeName := name, data := "", childNodes := cs,
    parentNode := parent }

def mkText (data : String) (parent : Option NodeId) : DomNode :=
  { kind := NodeKind.text, nodeName := "#text", data := data, childNodes := [],
    parentNode := parent }

/-- An empty surface. -/
def emptyDom : Dom where
  nodes := fun n =>
    match n with
    | 0 => mkElement "#document" [1] none
    | 1 => mkElement "DIV" [] (some 0)
    | _ => blankNode
  next := 2

/-- A surface holding one paragraph with the text `hello`. -/
def helloDom : Dom where
  nodes := fun n =>
    match n with
    | 0 => mkElement "#document" [1] none
    | 1 => mkElement "DIV" [2] (some 0)
    | 2 => mkElement "P" [3] (some 1)
    | 3 => mkText "hello" (some 2)
    | _ => blankNode
  next := 4

/-- A surface holding a bare text node followed by a figure. -/
def figureDom : Dom where
  nodes := fun n =>
    match n with
    | 0 => mkElement "#document" [1] none
    | 1 => mkElement "DIV" [2, 3] (some 0)
    | 2 => mkText "x" (some 1)
    | 3 => mkElement "FIGURE" [] (some 1)
    | _ => blankNode
  next := 4

/-- A surface holding one bare text node and no element. -/
def textOnlyDom : Dom where
  nodes := fun n =>
    match n with
    | 0 => mkElement "#document" [1] none
    | 1 => mkElement "DIV" [2] (some 0)
    | 2 => mkText "x" (some 1)
    | _ => blankNode
  next := 3

def emptySel : Sel :=
  { ranges := [], anchorNode := none, extentNode := none }

def mkSt (d : Dom) (sel : Option Sel) (range : Option Range) (node : Option NodeId) : St :=
  { dom := d, selection := sel, range := range, selectionNode := node, commandMap := [],
    log := [] }

/-- A state whose toolbar registry is the given one, on the `hello` document. -/
def toolbarSt (cm : List (String × ToolEl)) : St :=
  { dom := helloDom, selection := some emptySel, range := none, selectionNode := none,
    commandMap := cm, log := [] }

/-- The sample environment with the given set of active plugins. -/
def activeEnv (active : List String) : Env :=
  { sampleEnv with activePlugins := active }

/-- A state on the document with a bare text node before the figure; the
caret sits on the figure. -/
def figureSt : St :=
  mkSt figureDom (some ⟨[⟨3, 0, 3, 0⟩], some 3, some 3⟩) (some ⟨3, 0, 3, 0⟩) (some 3)

/-- A state on the `hello` document whose cached range spans the surface root
from offset 0 to offset 1. -/
def rootSpanSt : St :=
  mkSt helloDom (some ⟨[⟨1, 0, 1, 1⟩], some 1, some 1⟩) (some ⟨1, 0, 1, 1⟩) (some 1)

/-- The sample environment with a resolver that knows the figure (node 3) of
`figureDom` as an image component. -/
def componentEnv : Env :=
  { sampleEnv with
    getFileComponent := fun _ n =>
      match n with
      | some 3 => some ⟨3, "image"⟩
      | _ => none }

/-! ## Predicates and auxiliary documents of the statements -/

/-- The cache agrees with the host: the host offers no selection object, or
the cached range is the first live range. -/
def Stable (st : St) : Prop :=
  st.selection = none ∨
    ∃ sel r rs, st.selection = some sel ∧ sel.ranges = r :: rs ∧ st.range = some r

/-- The second state differs from the first in the cached selection node and
the call log only. -/
def Settled (st st1 : St) : Prop :=
  st1.dom = st.dom ∧ st1.selection = st.selection ∧ st1.range = st.range
    ∧ st1.commandMap = st.commandMap

/-- The range the host holds after `setStart(sc, so)` and `setEnd(ec, eo)` on
a fresh range: the two points, or the end point twice when the end lies in
another tree or before the start. -/
def hostRange (d : Dom) (sc : NodeId) (so : Nat) (ec : NodeId) (eo : Nat) : Range :=
  if rootOf d sc != rootOf d ec || bpBefore d ec eo sc so then ⟨ec, eo, ec, eo⟩
  else ⟨sc, so, ec, eo⟩

/-- The range the host holds after the `try` block of `setRange`. -/
def clampedRange (d : Dom) (startCon : NodeId) (startOff : Int) (endCon : NodeId)
    (endOff : Int) : Range :=
  hostRange d startCon (hostOffset (clampOffset d startCon startOff)) endCon
    (hostOffset (clampOffset d endCon endOff))

/-- No call of the list writes to the live selection. -/
def Quiet (l : List Call) : Prop :=
  ∀ c ∈ l, c ≠ Call.removeAllRanges ∧ ∀ r, c ≠ Call.addRange r

/-- The second state's log extends the first's by calls that do not write to
the live selection. -/
def Grows (st st1 : St) : Prop :=
  ∃ rest, st1.log = st.log ++ rest ∧ Quiet rest

/-- Both indentation commands are registered. -/
def HasPair (st : St) : Prop :=
  (findEl st.commandMap "OUTDENT").isSome = true ∧ (findEl st.commandMap "INDENT").isSome = true

/-- The surface and its children are nodes of the document. -/
def WellFormed (env : Env) (st : St) : Prop :=
  env.wysiwyg < st.dom.next ∧ ∀ c ∈ childNodes st.dom env.wysiwyg, c < st.dom.next

/-- The document after the insertion of source lines 180-182. -/
def placeholderDom (env : Env) (d : Dom) : Dom :=
  insertBefore (createParagraphWithBreak d).2.2 env.wysiwyg d.next
    (firstElementChild (createParagraphWithBreak d).2.2 env.wysiwyg)

/-- The document `_editorRange` leaves behind: the default range is derived,
and with it possibly a paragraph appended, exactly when the live selection
holds no range. -/
def recoveredDom (env : Env) (st : St) : Dom :=
  if st.selection.map Sel.ranges = some [] then (defaultFocusEl env st.dom).2 else st.dom

/-- The second state has the live selection of the first and the document of
the first, as it is or as `_editorRange` leaves it. -/
def Mid (env : Env) (st st1 : St) : Prop :=
  st1.selection = st.selection ∧ (st1.dom = st.dom ∨ st1.dom = recoveredDom env st)

/-- A state without host selection object on the `hello` document whose
cached range is collapsed on the surface root. -/
def rootCaretNoSelectionSt : St :=
  mkSt helloDom none (some ⟨1, 0, 1, 0⟩) (some 1)

/-- The document after the two `appendChild` calls of source lines 47-50. -/
def focusDom (env : Env) (d : Dom) : Dom :=
  appendChild (createParagraphWithBreak d).2.2 env.wysiwyg d.next

/-! ## The internal methods -/

theorem accepts_zero (d : Dom) (n : NodeId) : accepts d n 0 = true := by
  simp [accepts]

theorem hostOffset_zero : hostOffset 0 = 0 := by
  decide

theorem hostOffset_natCast (n : Nat) (h : n < 4294967296) : hostOffset (n : Int) = n := by
  unfold hostOffset
  have h1 : ((n : Int) % 4294967296) = (n : Int) := by omega
  rw [h1]
  exact Int.toNat_natCast n

theorem hostOffset_le (x : Int) (h : 0 ≤ x) : (hostOffset x : Int) ≤ x := by
  unfold hostOffset
  omega

theorem lexLt_irrefl (l : List Nat) : lexLt l l = false := by
  induction l with
  | nil => rfl
  | cons a as ih => simp [lexLt, ih]

theorem bpBefore_irrefl (d : Dom) (n : NodeId) (o : Nat) : bpBefore d n o n o = false := by
  simp [bpBefore, lexLt_irrefl]

/-- A range set to one point on both sides is that point twice. -/
theorem hostRange_same (d : Dom) (n : NodeId) (o : Nat) : hostRange d n o n o = ⟨n, o, n, o⟩ := by
  unfold hostRange
  split <;> rfl

theorem rangeSetStart_accepted (st : St) (r : Range) (n : NodeId) (off : Int)
    (h : accepts st.dom n (hostOffset off) = true) :
    ∃ en eo, rangeSetStart st r n off =
      (Except.ok ⟨n, hostOffset off, en, eo⟩, st.record (Call.setStart n off)) := by
  unfold rangeSetStart
  simp only [h, if_true]
  split
  · exact ⟨_, _, rfl⟩
  · exact ⟨_, _, rfl⟩

theorem rangeSetEnd_accepted (st : St) (r : Range) (n : NodeId) (off : Int)
    (h : accepts st.dom n (hostOffset off) = true) :
    rangeSetEnd st r n off =
      (Except.ok (hostRange st.dom r.startContainer r.startOffset n (hostOffset off)),
        st.record (Call.setEnd n off)) := by
  unfold rangeSetEnd hostRange
  simp only [h, if_true]
  split <;> rfl

theorem rangeSetStart_rejected (st : St) (r : Range) (n : NodeId) (off : Int)
    (h : accepts st.dom n (hostOffset off) = false) :
    rangeSetStart st r n off = (Except.error Err.indexSize, st.record (Call.setStart n off)) := by
  simp [rangeSetStart, h]

theorem rangeSetEnd_rejected (st : St) (r : Range) (n : NodeId) (off : Int)
    (h : accepts st.dom n (hostOffset off) = false) :
    rangeSetEnd st r n off = (Except.error Err.indexSize, st.record (Call.setEnd n off)) := by
  simp [rangeSetEnd, h]

/-- The default range is always built: offset 0 is accepted by every node. -/
theorem createDefaultRange_eq (env : Env) (st : St) :
    _createDefaultRange env st =
      (Except.ok ⟨(defaultFocusEl env st.dom).1, 0, (defaultFocusEl env st.dom).1, 0⟩,
        { st with
          dom := (defaultFocusEl env st.dom).2
          log := st.log ++ [Call.focus env.wysiwyg, Call.createRange,
            Call.setStart (defaultFocusEl env st.dom).1 0,
            Call.setEnd (defaultFocusEl env st.dom).1 0] }) := by
  unfold _createDefaultRange
  simp only [createRange]
  obtain ⟨en, eo, h1⟩ := rangeSetStart_accepted
    { (st.record (Call.focus env.wysiwyg)).record Call.createRange with
      dom := (defaultFocusEl env st.dom).2 }
    ⟨env.document, 0, env.document, 0⟩ (defaultFocusEl env st.dom).1 0
    (by rw [hostOffset_zero]; exact accepts_zero _ _)
  simp only [St.record] at h1 ⊢
  rw [h1]
  simp only []
  rw [rangeSetEnd_accepted _ _ _ _ (by rw [hostOffset_zero]; exact accepts_zero _ _)]
  simp [hostOffset_zero, hostRange_same, St.record]

theorem editorRange_none (env : Env) (st : St) (h : st.selection = none) :
    _editorRange env st = (Except.ok (), st) := by
  simp [_editorRange, getSelection, h]

theorem editorRange_live (env : Env) (st : St) (sel : Sel) (r : Range) (rs : List Range)
    (h : st.selection = some sel) (hr : sel.ranges = r :: rs) :
    _editorRange env st =
      (Except.ok (),
        { st with
          range := some r
          selectionNode :=
            if r.collapsed then some (r.commonAncestorContainer st.dom)
            else (sel.extentNode <|> sel.anchorNode) }) := by
  simp [_editorRange, getSelection, h, hr]

theorem editorRange_empty (env : Env) (st : St) (sel : Sel)
    (h : st.selection = some sel) (hr : sel.ranges = []) :
    _editorRange env st =
      (Except.ok (),
        { st with
          dom := (defaultFocusEl env st.dom).2
          range := some ⟨(defaultFocusEl env st.dom).1, 0, (defaultFocusEl env st.dom).1, 0⟩
          selectionNode := some (Range.commonAncestorContainer (defaultFocusEl env st.dom).2
            ⟨(defaultFocusEl env st.dom).1, 0, (defaultFocusEl env st.dom).1, 0⟩)
          log := st.log ++ [Call.focus env.wysiwyg, Call.createRange,
            Call.setStart (defaultFocusEl env st.dom).1 0,
            Call.setEnd (defaultFocusEl env st.dom).1 0] }) := by
  simp [_editorRange, getSelection, h, hr, createDefaultRange_eq, Range.collapsed]

/-- Re-deriving the cache never raises and leaves the live selection alone. -/
theorem editorRange_ok (env : Env) (st : St) :
    ∃ st1, _editorRange env st = (Except.ok (), st1) ∧ st1.selection = st.selection := by
  cases h : st.selection with
  | none => exact ⟨_, editorRange_none env st h, h⟩
  | some sel =>
    cases hr : sel.ranges with
    | nil => exact ⟨_, editorRange_empty env st sel h hr, h⟩
    | cons r rs => exact ⟨_, editorRange_live env st sel r rs h hr, h⟩

theorem deriveSelectionNode_ok (env : Env) (st : St) :
    ∃ v st1, deriveSelectionNode env st = (Except.ok v, st1)
      ∧ st1.selection = st.selection := by
  unfold deriveSelectionNode
  cases hn : st.selectionNode with
  | some n => exact ⟨_, _, rfl, rfl⟩
  | none =>
    cases hc : env.getChildElement st.dom (firstChild st.dom env.wysiwyg) (leafOrText st.dom)
        false with
    | some c => exact ⟨_, _, rfl, rfl⟩
    | none =>
      obtain ⟨st1, he, hs⟩ := editorRange_ok env st
      simp only [he]
      exact ⟨_, _, rfl, hs⟩

theorem getSelectionNode_ok (env : Env) (st : St) :
    ∃ v st1, getSelectionNode env st = (Except.ok v, st1)
      ∧ st1.selection = st.selection := by
  unfold getSelectionNode
  by_cases hw : isWysiwygDivOpt env st.dom st.selectionNode = true
  · obtain ⟨st1, he, hs⟩ := editorRange_ok env st
    obtain ⟨v, st2, hd, hs2⟩ := deriveSelectionNode_ok env st1
    simp only [hw, if_true, he]
    exact ⟨v, st2, hd, hs2.trans hs⟩
  · simp only [hw]
    exact deriveSelectionNode_ok env st

/-- Native focus recovery never raises and leaves the live selection alone. -/
theorem nativeFocus_ok (env : Env) (st : St) :
    ∃ st1, nativeFocus env st = (Except.ok (), st1) ∧ st1.selection = st.selection := by
  unfold nativeFocus
  obtain ⟨v, st1, hg, hs⟩ := getSelectionNode_ok env st
  simp only [hg]
  cases hp : env.getParentElement st1.dom v "figcaption" with
  | none =>
    obtain ⟨st2, he, hs2⟩ := editorRange_ok env (st1.record (Call.focus env.wysiwyg))
    exact ⟨st2, he, hs2.trans hs⟩
  | some c =>
    obtain ⟨st2, he, hs2⟩ := editorRange_ok env (st1.record (Call.focus c))
    exact ⟨st2, he, hs2.trans hs⟩

theorem Settled.selfSettled (st : St) : Settled st st :=
  ⟨rfl, rfl, rfl, rfl⟩

theorem Settled.thenSettled {a b c : St} (h1 : Settled a b) (h2 : Settled b c) : Settled a c :=
  ⟨h2.1.trans h1.1, h2.2.1.trans h1.2.1, h2.2.2.1.trans h1.2.2.1, h2.2.2.2.trans h1.2.2.2⟩

theorem Settled.stable {a b : St} (h : Settled a b) (hs : Stable a) : Stable b := by
  rcases hs with hn | ⟨sel, r, rs, h1, h2, h3⟩
  · exact Or.inl (h.2.1.trans hn)
  · exact Or.inr ⟨sel, r, rs, h.2.1.trans h1, h2, h.2.2.1.trans h3⟩

theorem record_settled (st : St) (c : Call) : Settled st (st.record c) :=
  ⟨rfl, rfl, rfl, rfl⟩

theorem editorRange_stable (env : Env) (st : St) (hs : Stable st) :
    ∃ st1, _editorRange env st = (Except.ok (), st1) ∧ Settled st st1 := by
  rcases hs with hn | ⟨sel, r, rs, h1, h2, h3⟩
  · exact ⟨st, editorRange_none env st hn, Settled.selfSettled st⟩
  · exact ⟨_, editorRange_live env st sel r rs h1 h2, rfl, rfl, h3.symm, rfl⟩

theorem deriveSelectionNode_stable (env : Env) (st : St) (hs : Stable st) :
    ∃ v st1, deriveSelectionNode env st = (Except.ok v, st1) ∧ Settled st st1 := by
  unfold deriveSelectionNode
  cases hn : st.selectionNode with
  | some n => exact ⟨_, _, rfl, Settled.selfSettled st⟩
  | none =>
    cases hc : env.getChildElement st.dom (firstChild st.dom env.wysiwyg) (leafOrText st.dom)
        false with
    | some c => exact ⟨_, _, rfl, rfl, rfl, rfl, rfl⟩
    | none =>
      obtain ⟨st1, he, hst⟩ := editorRange_stable env st hs
      simp only [he]
      exact ⟨_, _, rfl, hst⟩

theorem getSelectionNode_stable (env : Env) (st : St) (hs : Stable st) :
    ∃ v st1, getSelectionNode env st = (Except.ok v, st1) ∧ Settled st st1 := by
  unfold getSelectionNode
  by_cases hw : isWysiwygDivOpt env st.dom st.selectionNode = true
  · obtain ⟨st1, he, hst⟩ := editorRange_stable env st hs
    obtain ⟨v, st2, hd, hst2⟩ := deriveSelectionNode_stable env st1 (hst.stable hs)
    simp only [hw, if_true, he]
    exact ⟨v, st2, hd, hst.thenSettled hst2⟩
  · simp only [hw]
    exact deriveSelectionNode_stable env st hs

/-- With the cache in step with the host, native focus touches neither the
document, nor the live selection, nor the cached range. -/
theorem nativeFocus_stable (env : Env) (st : St) (hs : Stable st) :
    ∃ st1, nativeFocus env st = (Except.ok (), st1) ∧ Settled st st1 := by
  unfold nativeFocus
  obtain ⟨v, st1, hg, hst⟩ := getSelectionNode_stable env st hs
  simp only [hg]
  cases hp : env.getParentElement st1.dom v "figcaption" with
  | none =>
    have h2 := (hst.thenSettled (record_settled st1 (Call.focus env.wysiwyg)))
    obtain ⟨st2, he, hst2⟩ := editorRange_stable env _ (h2.stable hs)
    exact ⟨st2, he, h2.thenSettled hst2⟩
  | some c =>
    have h2 := (hst.thenSettled (record_settled st1 (Call.focus c)))
    obtain ⟨st2, he, hst2⟩ := editorRange_stable env _ (h2.stable hs)
    exact ⟨st2, he, h2.thenSettled hst2⟩

theorem buildRange_accepted (st : St) (r : Range) (sc : NodeId) (so : Int) (ec : NodeId)
    (eo : Int) (hs : accepts st.dom sc (hostOffset so) = true)
    (he : accepts st.dom ec (hostOffset eo) = true) :
    buildRange st r sc so ec eo =
      (Except.ok (hostRange st.dom sc (hostOffset so) ec (hostOffset eo)),
        { st with log := st.log ++ [Call.setStart sc so, Call.setEnd ec eo] }) := by
  unfold buildRange
  obtain ⟨en, eo1, h1⟩ := rangeSetStart_accepted st r sc so hs
  rw [h1]
  simp only []
  rw [rangeSetEnd_accepted (st.record (Call.setStart sc so)) _ ec eo he]
  simp [St.record]

theorem buildRange_end_rejected (st : St) (r : Range) (sc : NodeId) (so : Int) (ec : NodeId)
    (eo : Int) (hs : accepts st.dom sc (hostOffset so) = true)
    (he : accepts st.dom ec (hostOffset eo) = false) :
    buildRange st r sc so ec eo =
      (Except.error Err.indexSize,
        { st with log := st.log ++ [Call.setStart sc so, Call.setEnd ec eo] }) := by
  unfold buildRange
  obtain ⟨en, eo1, h1⟩ := rangeSetStart_accepted st r sc so hs
  rw [h1]
  simp only []
  rw [rangeSetEnd_rejected (st.record (Call.setStart sc so)) _ ec eo he]
  simp [St.record]

theorem buildRange_start_rejected (st : St) (r : Range) (sc : NodeId) (so : Int) (ec : NodeId)
    (eo : Int) (hs : accepts st.dom sc (hostOffset so) = false) :
    buildRange st r sc so ec eo =
      (Except.error Err.indexSize, { st with log := st.log ++ [Call.setStart sc so] }) := by
  unfold buildRange
  rw [rangeSetStart_rejected st r sc so hs]
  simp [St.record]

theorem buildRange_rejected (st : St) (r : Range) (sc : NodeId) (so : Int) (ec : NodeId)
    (eo : Int)
    (h : ¬ (accepts st.dom sc (hostOffset so) = true ∧ accepts st.dom ec (hostOffset eo) = true)) :
    ∃ st1, buildRange st r sc so ec eo = (Except.error Err.indexSize, st1)
      ∧ Settled st st1 := by
  cases hs : accepts st.dom sc (hostOffset so) with
  | true =>
    have he : accepts st.dom ec (hostOffset eo) = false := by
      cases hx : accepts st.dom ec (hostOffset eo)
      · rfl
      · exact absurd ⟨hs, hx⟩ h
    exact ⟨{ st with log := st.log ++ [Call.setStart sc so, Call.setEnd ec eo] },
      buildRange_end_rejected st r sc so ec eo hs he, rfl, rfl, rfl, rfl⟩
  | false =>
    exact ⟨{ st with log := st.log ++ [Call.setStart sc so] },
      buildRange_start_rejected st r sc so ec eo hs, rfl, rfl, rfl, rfl⟩

theorem editorRange_adopts (env : Env) (st : St) (sel : Sel) (r : Range) (rs : List Range)
    (h : st.selection = some sel) (hr : sel.ranges = r :: rs) :
    ∃ st1, _editorRange env st = (Except.ok (), st1)
      ∧ st1.dom = st.dom ∧ st1.range = some r ∧ st1.selection = some sel
      ∧ st1.commandMap = st.commandMap :=
  ⟨_, editorRange_live env st sel r rs h hr, rfl, rfl, h, rfl⟩

/-- Installing a built range in a present live selection: the live selection
holds exactly that range and the cache holds it too. -/
theorem applyRange_present (env : Env) (st : St) (sel : Sel) (r : Range)
    (hsel : st.selection = some sel) :
    ∃ st1, applyRange env st r = (Except.ok (), st1)
      ∧ st1.dom = st.dom ∧ st1.range = some r
      ∧ st1.selection = some (sel.removeAllRanges.addRange r env.hostHasExtentNode)
      ∧ st1.commandMap = st.commandMap := by
  unfold applyRange getSelection
  simp only [hsel]
  obtain ⟨st4, he, hd, hr, hse, hc⟩ := editorRange_adopts env
    { (st.record Call.removeAllRanges).record (Call.addRange r) with
      selection := some (sel.removeAllRanges.addRange r env.hostHasExtentNode) }
    (sel.removeAllRanges.addRange r env.hostHasExtentNode) r [] rfl rfl
  simp only [he]
  by_cases hi : env.iframe = true
  · simp only [hi, if_true]
    obtain ⟨st2, hn, hst⟩ := nativeFocus_stable env st4
      (Or.inr ⟨_, r, [], hse, by simp [Sel.addRange, Sel.removeAllRanges], hr⟩)
    exact ⟨st2, hn, hst.1.trans hd, hst.2.2.1.trans hr, hst.2.1.trans hse, hst.2.2.2.trans hc⟩
  · simp only [hi]
    exact ⟨st4, rfl, hd, hr, hse, hc⟩

theorem applyRange_absent (env : Env) (st : St) (r : Range) (hsel : st.selection = none) :
    applyRange env st r = (Except.error Err.typeError, st) := by
  simp [applyRange, getSelection, hsel]

/-- The successful path of `setRange`. -/
theorem setRange_accepted (env : Env) (st : St) (sel : Sel) (sc : NodeId) (so : Int)
    (ec : NodeId) (eo : Int) (hsel : st.selection = some sel)
    (hs : accepts st.dom sc (hostOffset (clampOffset st.dom sc so)) = true)
    (he : accepts st.dom ec (hostOffset (clampOffset st.dom ec eo)) = true) :
    ∃ st1, setRange env st (some sc) so (some ec) eo = (Except.ok (), st1)
      ∧ st1.dom = st.dom ∧ st1.range = some (clampedRange st.dom sc so ec eo)
      ∧ st1.selection = some (sel.removeAllRanges.addRange (clampedRange st.dom sc so ec eo)
          env.hostHasExtentNode)
      ∧ st1.commandMap = st.commandMap := by
  unfold setRange
  simp only [createRange]
  rw [buildRange_accepted (st.record Call.createRange) _ sc _ ec _ hs he]
  exact applyRange_present env _ sel _ hsel

/-! ## Facts about the document primitives -/

theorem childNodes_setParent (d : Dom) (c p x : NodeId) :
    childNodes (setParent d c p) x = childNodes d x := by
  unfold childNodes setParent
  by_cases h : x = c
  · subst h; simp
  · simp [Function.update_noteq h]

theorem kind_setParent (d : Dom) (c p x : NodeId) :
    ((setParent d c p).nodes x).kind = (d.nodes x).kind := by
  unfold setParent
  by_cases h : x = c
  · subst h; simp
  · simp [Function.update_noteq h]

theorem nodeName_setParent (d : Dom) (c p x : NodeId) :
    ((setParent d c p).nodes x).nodeName = (d.nodes x).nodeName := by
  unfold setParent
  by_cases h : x = c
  · subst h; simp
  · simp [Function.update_noteq h]

theorem childNodes_setChildNodes (d : Dom) (p : NodeId) (cs : List NodeId) (x : NodeId) :
    childNodes (setChildNodes d p cs) x = if x = p then cs else childNodes d x := by
  unfold childNodes setChildNodes
  by_cases h : x = p
  · subst h; simp
  · simp [Function.update_noteq h, h]

theorem kind_setChildNodes (d : Dom) (p : NodeId) (cs : List NodeId) (x : NodeId) :
    ((setChildNodes d p cs).nodes x).kind = (d.nodes x).kind := by
  unfold setChildNodes
  by_cases h : x = p
  · subst h; simp
  · simp [Function.update_noteq h]

theorem nodeName_setChildNodes (d : Dom) (p : NodeId) (cs : List NodeId) (x : NodeId) :
    ((setChildNodes d p cs).nodes x).nodeName = (d.nodes x).nodeName := by
  unfold setChildNodes
  by_cases h : x = p
  · subst h; simp
  · simp [Function.update_noteq h]

theorem childNodes_appendChild (d : Dom) (p c x : NodeId) :
    childNodes (appendChild d p c) x = if x = p then childNodes d p ++ [c] else childNodes d x := by
  simp [appendChild, childNodes_setChildNodes, childNodes_setParent]

theorem kind_appendChild (d : Dom) (p c x : NodeId) :
    ((appendChild d p c).nodes x).kind = (d.nodes x).kind := by
  simp [appendChild, kind_setChildNodes, kind_setParent]

theorem nodeName_appendChild (d : Dom) (p c x : NodeId) :
    ((appendChild d p c).nodes x).nodeName = (d.nodes x).nodeName := by
  simp [appendChild, nodeName_setChildNodes, nodeName_setParent]

theorem next_appendChild (d : Dom) (p c : NodeId) : (appendChild d p c).next = d.next := rfl

theorem childNodes_insertBefore (d : Dom) (p c : NodeId) (ref : Option NodeId) (x : NodeId) :
    childNodes (insertBefore d p c ref) x =
      if x = p then
        (match ref with
          | none => childNodes d p ++ [c]
          | some r => insertAt c r (childNodes d p))
      else childNodes d x := by
  cases ref with
  | none => simp [insertBefore, childNodes_appendChild]
  | some r => simp [insertBefore, childNodes_setChildNodes, childNodes_setParent]

theorem kind_insertBefore (d : Dom) (p c : NodeId) (ref : Option NodeId) (x : NodeId) :
    ((insertBefore d p c ref).nodes x).kind = (d.nodes x).kind := by
  cases ref with
  | none => simp [insertBefore, kind_appendChild]
  | some r => simp [insertBefore, kind_setChildNodes, kind_setParent]

theorem nodeName_insertBefore (d : Dom) (p c : NodeId) (ref : Option NodeId) (x : NodeId) :
    ((insertBefore d p c ref).nodes x).nodeName = (d.nodes x).nodeName := by
  cases ref with
  | none => simp [insertBefore, nodeName_appendChild]
  | some r => simp [insertBefore, nodeName_setChildNodes, nodeName_setParent]

theorem next_insertBefore (d : Dom) (p c : NodeId) (ref : Option NodeId) :
    (insertBefore d p c ref).next = d.next := by
  cases ref <;> rfl

theorem childNodes_createElement (d : Dom) (name : String) (x : NodeId) :
    childNodes (createElement d name).2 x = if x = d.next then [] else childNodes d x := by
  unfold childNodes createElement
  by_cases h : x = d.next
  · subst h; simp
  · simp [Function.update_noteq h, h]

theorem kind_createElement (d : Dom) (name : String) (x : NodeId) :
    ((createElement d name).2.nodes x).kind =
      if x = d.next then NodeKind.element else (d.nodes x).kind := by
  unfold createElement
  by_cases h : x = d.next
  · subst h; simp
  · simp [Function.update_noteq h, h]

theorem nodeName_createElement (d : Dom) (name : String) (x : NodeId) :
    ((createElement d name).2.nodes x).nodeName =
      if x = d.next then name else (d.nodes x).nodeName := by
  unfold createElement
  by_cases h : x = d.next
  · subst h; simp
  · simp [Function.update_noteq h, h]

theorem fst_createElement (d : Dom) (name : String) : (createElement d name).1 = d.next := rfl

theorem next_createElement (d : Dom) (name : String) :
    (createElement d name).2.next = d.next + 1 := rfl

/-- The fresh paragraph is the next free node, its line break the one after. -/
theorem createParagraphWithBreak_ids (d : Dom) :
    (createParagraphWithBreak d).1 = d.next ∧ (createParagraphWithBreak d).2.1 = d.next + 1
      ∧ (createParagraphWithBreak d).2.2.next = d.next + 2 :=
  ⟨rfl, rfl, rfl⟩

theorem childNodes_createParagraphWithBreak (d : Dom) (x : NodeId) :
    childNodes (createParagraphWithBreak d).2.2 x =
      if x = d.next then [d.next + 1] else if x = d.next + 1 then [] else childNodes d x := by
  simp only [createParagraphWithBreak, childNodes_appendChild, childNodes_createElement,
    fst_createElement, next_createElement]
  by_cases h1 : x = d.next
  · subst h1; simp
  · by_cases h2 : x = d.next + 1
    · subst h2; simp
    · simp [h1, h2]

theorem kind_createParagraphWithBreak (d : Dom) (x : NodeId) :
    ((createParagraphWithBreak d).2.2.nodes x).kind =
      if x = d.next ∨ x = d.next + 1 then NodeKind.element else (d.nodes x).kind := by
  simp only [createParagraphWithBreak, kind_appendChild, kind_createElement,
    fst_createElement, next_createElement]
  by_cases h1 : x = d.next
  · subst h1; simp
  · by_cases h2 : x = d.next + 1
    · subst h2; simp
    · simp [h1, h2]

theorem nodeName_createParagraphWithBreak (d : Dom) (x : NodeId) :
    ((createParagraphWithBreak d).2.2.nodes x).nodeName =
      if x = d.next then "P" else if x = d.next + 1 then "BR" else (d.nodes x).nodeName := by
  simp only [createParagraphWithBreak, nodeName_appendChild, nodeName_createElement,
    fst_createElement, next_createElement]
  by_cases h1 : x = d.next
  · subst h1; simp
  · by_cases h2 : x = d.next + 1
    · subst h2; simp
    · simp [h1, h2]

/-- An element without children has no text. -/
theorem textLength_childless (d : Dom) (n : NodeId) (hk : (d.nodes n).kind = NodeKind.element)
    (hc : childNodes d n = []) : textLength d n = 0 := by
  unfold textLength
  cases d.next with
  | zero => rfl
  | succ f =>
    unfold childNodes at hc
    simp [textLenAux, hk, hc]

theorem clampOffset_eq_min (d : Dom) (n : NodeId) (off : Int) :
    clampOffset d n off = min off (textLength d n) := by
  unfold clampOffset
  split <;> omega

theorem Grows.selfGrows (st : St) : Grows st st :=
  ⟨[], by simp, by intro c hc; cases hc⟩

theorem Grows.thenGrows {a b c : St} (h1 : Grows a b) (h2 : Grows b c) : Grows a c := by
  obtain ⟨r1, e1, q1⟩ := h1
  obtain ⟨r2, e2, q2⟩ := h2
  refine ⟨r1 ++ r2, by rw [e2, e1, List.append_assoc], ?_⟩
  intro x hx
  rcases List.mem_append.mp hx with h | h
  · exact q1 x h
  · exact q2 x h

theorem record_focus_grows (st : St) (n : NodeId) : Grows st (st.record (Call.focus n)) :=
  ⟨[Call.focus n], rfl, by intro c hc; simp at hc; subst hc; simp⟩

theorem editorRange_grows (env : Env) (st : St) : Grows st (_editorRange env st).2 := by
  cases h : st.selection with
  | none => rw [editorRange_none env st h]; exact Grows.selfGrows st
  | some sel =>
    cases hr : sel.ranges with
    | nil =>
      rw [editorRange_empty env st sel h hr]
      refine ⟨_, rfl, ?_⟩
      intro c hc
      simp at hc
      rcases hc with hc | hc | hc | hc <;> subst hc <;> simp
    | cons r rs =>
      rw [editorRange_live env st sel r rs h hr]
      exact ⟨[], by simp, by intro c hc; cases hc⟩

theorem deriveSelectionNode_grows (env : Env) (st : St) :
    Grows st (deriveSelectionNode env st).2 := by
  unfold deriveSelectionNode
  cases hn : st.selectionNode with
  | some n => exact Grows.selfGrows st
  | none =>
    cases hc : env.getChildElement st.dom (firstChild st.dom env.wysiwyg) (leafOrText st.dom)
        false with
    | some c => exact ⟨[], by simp, by intro c hc; cases hc⟩
    | none =>
      have hg := editorRange_grows env st
      obtain ⟨st1, he, _⟩ := editorRange_ok env st
      rw [he] at hg
      simp only [he]
      exact hg

theorem getSelectionNode_grows (env : Env) (st : St) :
    Grows st (getSelectionNode env st).2 := by
  unfold getSelectionNode
  by_cases hw : isWysiwygDivOpt env st.dom st.selectionNode = true
  · have hg := editorRange_grows env st
    obtain ⟨st1, he, _⟩ := editorRange_ok env st
    rw [he] at hg
    simp only [hw, if_true, he]
    exact hg.thenGrows (deriveSelectionNode_grows env st1)
  · simp only [hw]
    exact deriveSelectionNode_grows env st

theorem nativeFocus_grows (env : Env) (st : St) : Grows st (nativeFocus env st).2 := by
  unfold nativeFocus
  have hg := getSelectionNode_grows env st
  obtain ⟨v, st1, hgs, _⟩ := getSelectionNode_ok env st
  rw [hgs] at hg
  simp only [hgs]
  cases hp : env.getParentElement st1.dom v "figcaption" with
  | none =>
    exact (hg.thenGrows (record_focus_grows st1 env.wysiwyg)).thenGrows (editorRange_grows env _)
  | some c =>
    exact (hg.thenGrows (record_focus_grows st1 c)).thenGrows (editorRange_grows env _)

theorem applyRange_extends (env : Env) (st : St) (r : Range) :
    ∃ rest, (applyRange env st r).2.log = st.log ++ rest := by
  cases hsel : st.selection with
  | none => rw [applyRange_absent env st r hsel]; exact ⟨[], by simp⟩
  | some sel =>
    unfold applyRange getSelection
    simp only [hsel]
    have hg := editorRange_grows env
      { (st.record Call.removeAllRanges).record (Call.addRange r) with
        selection := some (sel.removeAllRanges.addRange r env.hostHasExtentNode) }
    obtain ⟨st4, he, _⟩ := editorRange_ok env
      { (st.record Call.removeAllRanges).record (Call.addRange r) with
        selection := some (sel.removeAllRanges.addRange r env.hostHasExtentNode) }
    rw [he] at hg
    simp only [he]
    obtain ⟨r1, e1, _⟩ := hg
    have e3 : st4.log = st.log ++ ([Call.removeAllRanges, Call.addRange r] ++ r1) := by
      simpa [St.record] using e1
    by_cases hi : env.iframe = true
    · simp only [hi, if_true]
      obtain ⟨r2, e2, _⟩ := nativeFocus_grows env st4
      exact ⟨[Call.removeAllRanges, Call.addRange r] ++ r1 ++ r2, by
        rw [e2, e3]; simp⟩
    · exact ⟨[Call.removeAllRanges, Call.addRange r] ++ r1, by simp [hi, e3]⟩

/-! ## `setRange`, `getRange` and `focusEdge` -/

theorem record_grows (st : St) (c : Call)
    (hc : c ≠ Call.removeAllRanges ∧ ∀ r, c ≠ Call.addRange r) : Grows st (st.record c) :=
  ⟨[c], rfl, by intro x hx; simp at hx; subst hx; exact hc⟩

theorem buildRange_rejected_grows (st : St) (r : Range) (sc : NodeId) (so : Int) (ec : NodeId)
    (eo : Int) : Grows st (buildRange st r sc so ec eo).2 := by
  cases hs : accepts st.dom sc (hostOffset so) with
  | true =>
    cases he : accepts st.dom ec (hostOffset eo) with
    | true =>
      rw [buildRange_accepted st r sc so ec eo hs he]
      refine ⟨_, rfl, ?_⟩
      intro c hc
      simp at hc
      rcases hc with hc | hc <;> subst hc <;> simp
    | false =>
      rw [buildRange_end_rejected st r sc so ec eo hs he]
      refine ⟨_, rfl, ?_⟩
      intro c hc
      simp at hc
      rcases hc with hc | hc <;> subst hc <;> simp
  | false =>
    rw [buildRange_start_rejected st r sc so ec eo hs]
    refine ⟨_, rfl, ?_⟩
    intro c hc
    simp at hc
    subst hc
    simp

/-- C1, as the code has it: round trip of `setRange` and `getRange`. With a
host selection object present and both clamped endpoints accepted by the host
range, `setRange` returns normally and the `getRange()` made right after it
returns, without changing the state, what the host range holds: the start
`(startCon, u(min(startOff, text length)))` and the end `(endCon,
u(min(endOff, text length)))` when the end point is in the tree of the start
point and not before it, and the end point on both sides otherwise. Here `u`
is the host's reading of an offset as an unsigned 32-bit number; it changes
nothing for a non-negative offset and a text shorter than 2^32 units. -/
theorem setRange_getRange_roundtrip (env : Env) (st : St) (sel : Sel) (startCon : NodeId)
    (startOff : Int) (endCon : NodeId) (endOff : Int)
    (hsel : st.selection = some sel)
    (hs : accepts st.dom startCon
      (hostOffset (min startOff (textLength st.dom startCon))) = true)
    (he : accepts st.dom endCon
      (hostOffset (min endOff (textLength st.dom endCon))) = true) :
    (∃ st1, setRange env st (some startCon) startOff (some endCon) endOff = (Except.ok (), st1)
      ∧ getRange env st1 =
          (Except.ok
            (if rootOf st.dom startCon != rootOf st.dom endCon
                || bpBefore st.dom endCon (hostOffset (min endOff (textLength st.dom endCon)))
                    startCon (hostOffset (min startOff (textLength st.dom startCon))) then
              ⟨endCon, hostOffset (min endOff (textLength st.dom endCon)),
                endCon, hostOffset (min endOff (textLength st.dom endCon))⟩
            else
              ⟨startCon, hostOffset (min startOff (textLength st.dom startCon)),
                endCon, hostOffset (min endOff (textLength st.dom endCon))⟩), st1))
      ∧ (0 ≤ startOff → textLength st.dom startCon < 4294967296 →
          (hostOffset (min startOff (textLength st.dom startCon)) : Int)
            = min startOff (textLength st.dom startCon))
      ∧ (0 ≤ endOff → textLength st.dom endCon < 4294967296 →
          (hostOffset (min endOff (textLength st.dom endCon)) : Int)
            = min endOff (textLength st.dom endCon)) := by
  refine ⟨?_, ?_, ?_⟩
  · rw [← clampOffset_eq_min] at hs he
    obtain ⟨st1, h1, _, hr, _, _⟩ :=
      setRange_accepted env st sel startCon startOff endCon endOff hsel hs he
    refine ⟨st1, h1, ?_⟩
    simp only [getRange, hr, clampedRange, hostRange, clampOffset_eq_min]
  · intro h0 hlt
    unfold hostOffset
    omega
  · intro h0 hlt
    unfold hostOffset
    omega

/-- C1, as stated, fails. In the text `hello` (node 3) both calls below have
their endpoints accepted by the host. `setRange(3, 4, 3, 2)` puts the end
before the start, the host moves the start onto the end, and `getRange()`
returns `(3,2)-(3,2)`, not a start at offset `min(4, 5) = 4`. In
`setRange(3, -4294967294, 3, 3)` the host reads the start offset as 2, and
`getRange()` returns a start at offset 2, not at `min(-4294967294, 5)`. -/
theorem getRange_after_setRange_differs :
    accepts helloDom 3 (hostOffset (min 4 (textLength helloDom 3))) = true
      ∧ accepts helloDom 3 (hostOffset (min 2 (textLength helloDom 3))) = true
      ∧ (getRange sampleEnv (setRange sampleEnv (mkSt helloDom (some emptySel) none none)
            (some 3) 4 (some 3) 2).2).1 = Except.ok ⟨3, 2, 3, 2⟩
      ∧ (⟨3, 2, 3, 2⟩ : Range) ≠ ⟨3, 4, 3, 2⟩
      ∧ accepts helloDom 3 (hostOffset (min (-4294967294) (textLength helloDom 3))) = true
      ∧ accepts helloDom 3 (hostOffset (min 3 (textLength helloDom 3))) = true
      ∧ (getRange sampleEnv (setRange sampleEnv (mkSt helloDom (some emptySel) none none)
            (some 3) (-4294967294) (some 3) 3).2).1 = Except.ok ⟨3, 2, 3, 3⟩
      ∧ ((2 : Nat) : Int) ≠ min (-4294967294) (textLength helloDom 3) :=
  ⟨by decide, by decide, rfl, by decide, by decide, by decide, rfl, by decide⟩

/-- C2, as the code has it: offset clamping in `setRange`. For present
containers the call is never turned away because of an offset: right after
`createRange` the host range is handed `setStart(startCon, min(startOff, text
length of startCon))`. When the host accepts that start, it is handed
`setEnd(endCon, min(endOff, text length of endCon))` next; when `setStart`
throws, the `try` block is left, the warning comes next and the end offset is
not handed over. An offset above the text length is thus handed over as the
text length, any other offset unchanged. -/
theorem setRange_clamps_offsets (env : Env) (st : St) (startCon : NodeId) (startOff : Int)
    (endCon : NodeId) (endOff : Int) :
    ∃ rest, (setRange env st (some startCon) startOff (some endCon) endOff).2.log =
      st.log ++ Call.createRange
        :: Call.setStart startCon (min startOff (textLength st.dom startCon))
        :: (if accepts st.dom startCon
              (hostOffset (min startOff (textLength st.dom startCon))) then
              Call.setEnd endCon (min endOff (textLength st.dom endCon)) :: rest
            else Call.warn Err.indexSize :: rest) := by
  simp only [← clampOffset_eq_min]
  unfold setRange
  simp only [createRange]
  cases hs : accepts st.dom startCon (hostOffset (clampOffset st.dom startCon startOff)) with
  | true =>
    cases he : accepts st.dom endCon (hostOffset (clampOffset st.dom endCon endOff)) with
    | true =>
      rw [buildRange_accepted (st.record Call.createRange) _ startCon _ endCon _ hs he]
      obtain ⟨rest, h⟩ := applyRange_extends env
        { st.record Call.createRange with
          log := (st.record Call.createRange).log ++
            [Call.setStart startCon (clampOffset st.dom startCon startOff),
             Call.setEnd endCon (clampOffset st.dom endCon endOff)] }
        (hostRange (st.record Call.createRange).dom startCon
          (hostOffset (clampOffset st.dom startCon startOff)) endCon
          (hostOffset (clampOffset st.dom endCon endOff)))
      refine ⟨rest, ?_⟩
      simp only [] at h ⊢
      rw [h]
      simp [St.record]
    | false =>
      rw [buildRange_end_rejected (st.record Call.createRange) _ startCon _ endCon _ hs he]
      obtain ⟨rest, h, _⟩ := nativeFocus_grows env
        (St.record { st.record Call.createRange with
            log := (st.record Call.createRange).log ++
              [Call.setStart startCon (clampOffset st.dom startCon startOff),
               Call.setEnd endCon (clampOffset st.dom endCon endOff)] }
          (Call.warn Err.indexSize))
      refine ⟨Call.warn Err.indexSize :: rest, ?_⟩
      simp only [] at h ⊢
      rw [h]
      simp [St.record]
  | false =>
    rw [buildRange_start_rejected (st.record Call.createRange) _ startCon _ endCon _ hs]
    obtain ⟨rest, h, _⟩ := nativeFocus_grows env
      (St.record { st.record Call.createRange with
          log := (st.record Call.createRange).log ++
            [Call.setStart startCon (clampOffset st.dom startCon startOff)] }
        (Call.warn Err.indexSize))
    refine ⟨rest, ?_⟩
    simp only [] at h ⊢
    rw [h]
    simp [St.record]

/-- C2, as stated, fails. The paragraph (node 2) has the text length 5 and one
child, its text (node 3) has the length 5. In `setRange(2, 9, 3, 9)` both
offsets exceed the text length; the start is handed over as 5, the host
rejects it, and the end offset is never handed over: no `setEnd` on node 3 is
issued at all. -/
theorem setRange_start_failure_skips_setEnd :
    textLength helloDom 2 = 5 ∧ textLength helloDom 3 = 5
      ∧ (setRange sampleEnv (mkSt helloDom (some emptySel) none none) (some 2) 9 (some 3) 9).2.log
          = [Call.createRange, Call.setStart 2 5, Call.warn Err.indexSize, Call.focus 1,
              Call.focus 1, Call.createRange, Call.setStart 2 0, Call.setEnd 2 0]
      ∧ Call.setEnd 3 5 ∉
          (setRange sampleEnv (mkSt helloDom (some emptySel) none none) (some 2) 9 (some 3) 9).2.log :=
  ⟨by decide, by decide, by decide, by decide⟩

/-- C3: `setRange` never lets a range-construction failure escape. When the
host's `setStart` or `setEnd` throws at the clamped endpoints, the call is
the native focus recovery run on the state the failed construction left (same
document, live selection and cache as before the call, the warning logged);
that recovery returns normally, the live selection is the one from before the
call, and no `removeAllRanges` or `addRange` was issued. Native focus itself
returns normally from every state. -/
theorem setRange_absorbs_host_failure (env : Env) (st : St) (startCon : NodeId)
    (startOff : Int) (endCon : NodeId) (endOff : Int)
    (h : ¬ (accepts st.dom startCon
          (hostOffset (min startOff (textLength st.dom startCon))) = true
      ∧ accepts st.dom endCon (hostOffset (min endOff (textLength st.dom endCon))) = true)) :
    ∃ st0 st1, Settled st st0
      ∧ setRange env st (some startCon) startOff (some endCon) endOff =
          nativeFocus env (st0.record (Call.warn Err.indexSize))
      ∧ nativeFocus env (st0.record (Call.warn Err.indexSize)) = (Except.ok (), st1)
      ∧ st1.selection = st.selection
      ∧ Grows st st1
      ∧ ∀ st2, (nativeFocus env st2).1 = Except.ok () := by
  simp only [← clampOffset_eq_min] at h
  obtain ⟨st0, hb, hst⟩ := buildRange_rejected (st.record Call.createRange)
    ⟨env.document, 0, env.document, 0⟩ startCon (clampOffset st.dom startCon startOff)
    endCon (clampOffset st.dom endCon endOff) h
  have hg0 := buildRange_rejected_grows (st.record Call.createRange)
    ⟨env.document, 0, env.document, 0⟩ startCon (clampOffset st.dom startCon startOff)
    endCon (clampOffset st.dom endCon endOff)
  rw [hb] at hg0
  obtain ⟨st1, hn, hs1⟩ := nativeFocus_ok env (st0.record (Call.warn Err.indexSize))
  have hg1 := nativeFocus_grows env (st0.record (Call.warn Err.indexSize))
  rw [hn] at hg1
  refine ⟨st0, st1, (record_settled st Call.createRange).thenSettled hst, ?_, hn, ?_, ?_, ?_⟩
  · unfold setRange
    simp only [createRange]
    rw [hb]
  · exact hs1.trans hst.2.1
  · exact (((record_grows st Call.createRange (by simp)).thenGrows hg0).thenGrows
      (record_grows st0 (Call.warn Err.indexSize) (by simp))).thenGrows hg1
  · intro st2
    obtain ⟨st3, h3, _⟩ := nativeFocus_ok env st2
    rw [h3]

/-- C4: `getRange` on an empty surface. With no cached range and a surface
without children, `getRange()` returns normally the collapsed range at offset
0 of a paragraph that did not exist before; afterwards that paragraph is the
only child of the surface and holds one line break. -/
theorem getRange_on_empty_surface (env : Env) (st : St)
    (hr : st.range = none) (hc : childNodes st.dom env.wysiwyg = [])
    (hw : env.wysiwyg < st.dom.next) :
    ∃ st1, getRange env st = (Except.ok ⟨st.dom.next, 0, st.dom.next, 0⟩, st1)
      ∧ Range.collapsed ⟨st.dom.next, 0, st.dom.next, 0⟩ = true
      ∧ childNodes st1.dom env.wysiwyg = [st.dom.next]
      ∧ (st1.dom.nodes st.dom.next).nodeName = "P"
      ∧ childNodes st1.dom st.dom.next = [st.dom.next + 1]
      ∧ (st1.dom.nodes (st.dom.next + 1)).nodeName = "BR" := by
  have hfe : firstElementChild st.dom env.wysiwyg = none := by
    simp [firstElementChild, hc]
  have hd : defaultFocusEl env st.dom =
      (st.dom.next, appendChild (createParagraphWithBreak st.dom).2.2 env.wysiwyg st.dom.next) := by
    simp only [defaultFocusEl, hfe]
    rfl
  have h1 : env.wysiwyg ≠ st.dom.next := Nat.ne_of_lt hw
  have h2 : env.wysiwyg ≠ st.dom.next + 1 := Nat.ne_of_lt (Nat.lt_succ_of_lt hw)
  refine ⟨{ st with
      dom := appendChild (createParagraphWithBreak st.dom).2.2 env.wysiwyg st.dom.next
      log := st.log ++ [Call.focus env.wysiwyg, Call.createRange,
        Call.setStart st.dom.next 0, Call.setEnd st.dom.next 0] }, ?_, ?_, ?_, ?_, ?_, ?_⟩
  · simp only [getRange, hr, createDefaultRange_eq, hd]
  · simp [Range.collapsed]
  · simp [childNodes_appendChild, childNodes_createParagraphWithBreak, h1, h2, hc]
  · simp [nodeName_appendChild, nodeName_createParagraphWithBreak]
  · simp [childNodes_appendChild, childNodes_createParagraphWithBreak, h1.symm]
  · simp [nodeName_appendChild, nodeName_createParagraphWithBreak]

/-- The document after the default range was derived on a surface without an
element child: the surface gained the fresh paragraph as its last child, and
the paragraph holds one line break. -/
theorem defaultFocusEl_fresh (env : Env) (d : Dom)
    (hf : firstElementChild d env.wysiwyg = none) :
    (defaultFocusEl env d).1 = d.next
      ∧ ((defaultFocusEl env d).2.nodes d.next).nodeName = "P"
      ∧ ((defaultFocusEl env d).2.nodes d.next).kind = NodeKind.element
      ∧ ((defaultFocusEl env d).2.nodes (d.next + 1)).nodeName = "BR"
      ∧ (defaultFocusEl env d).2.next = d.next + 2
      ∧ (env.wysiwyg < d.next →
          childNodes (defaultFocusEl env d).2 env.wysiwyg = childNodes d env.wysiwyg ++ [d.next]
            ∧ childNodes (defaultFocusEl env d).2 d.next = [d.next + 1]) := by
  have hd : defaultFocusEl env d =
      (d.next, appendChild (createParagraphWithBreak d).2.2 env.wysiwyg d.next) := by
    simp only [defaultFocusEl, hf]
    rfl
  rw [hd]
  refine ⟨rfl, ?_, ?_, ?_, rfl, ?_⟩
  · simp [nodeName_appendChild, nodeName_createParagraphWithBreak]
  · simp [kind_appendChild, kind_createParagraphWithBreak]
  · simp [nodeName_appendChild, nodeName_createParagraphWithBreak]
  · intro hw
    have h1 : env.wysiwyg ≠ d.next := Nat.ne_of_lt hw
    have h2 : env.wysiwyg ≠ d.next + 1 := Nat.ne_of_lt (Nat.lt_succ_of_lt hw)
    constructor
    · simp [childNodes_appendChild, childNodes_createParagraphWithBreak, h1, h2]
    · simp [childNodes_appendChild, childNodes_createParagraphWithBreak, h1.symm]

/-- C10, as the code has it: a cached range is returned with the state left
untouched; without one, `getRange()` returns the collapsed range at offset 0
of the surface's first element child, the document unchanged, or, when the
surface has no element child, of a fresh paragraph holding one line break
that it appends to the surface (an allocated node) as its last child; in both
cases it stores nothing: the cached range is still absent after the call, and
the live selection and the cached node are unchanged. -/
theorem getRange_cached_or_default (env : Env) (st : St) :
    match st.range with
    | some r => getRange env st = (Except.ok r, st)
    | none =>
      ∃ f st1, getRange env st = (Except.ok ⟨f, 0, f, 0⟩, st1)
        ∧ st1.range = none ∧ st1.selection = st.selection
        ∧ st1.selectionNode = st.selectionNode
        ∧ (match firstElementChild st.dom env.wysiwyg with
            | some el => f = el ∧ st1.dom = st.dom
            | none =>
              f = st.dom.next
                ∧ (st1.dom.nodes f).nodeName = "P"
                ∧ (st1.dom.nodes (f + 1)).nodeName = "BR"
                ∧ (env.wysiwyg < st.dom.next →
                    childNodes st1.dom env.wysiwyg = childNodes st.dom env.wysiwyg ++ [f]
                      ∧ childNodes st1.dom f = [f + 1])) := by
  cases hr : st.range with
  | some r => simp [getRange, hr]
  | none =>
    simp only [getRange, hr, createDefaultRange_eq]
    refine ⟨_, _, rfl, rfl, rfl, rfl, ?_⟩
    cases hf : firstElementChild st.dom env.wysiwyg with
    | some el => simp [defaultFocusEl, hf]
    | none =>
      obtain ⟨h1, h2, _, h4, _, h6⟩ := defaultFocusEl_fresh env st.dom hf
      simp only []
      rw [h1]
      exact ⟨rfl, h2, h4, h6⟩

/-- C10, as stated, fails: on the empty surface with no cached range
`getRange()` returns a range and the cached range is still absent. -/
theorem getRange_stores_nothing :
    (mkSt emptyDom (some emptySel) none none).range = none
      ∧ (getRange sampleEnv (mkSt emptyDom (some emptySel) none none)).1
          = Except.ok ⟨2, 0, 2, 0⟩
      ∧ (getRange sampleEnv (mkSt emptyDom (some emptySel) none none)).2.range = none
      ∧ (getRange sampleEnv (mkSt emptyDom (some emptySel) none none)).2.range
          ≠ some ⟨2, 0, 2, 0⟩ :=
  ⟨rfl, rfl, rfl, by decide⟩

theorem getRange_cached_or_default_witness :
    (mkSt textOnlyDom (some emptySel) none none).range = none
      ∧ firstElementChild textOnlyDom sampleEnv.wysiwyg = none
      ∧ sampleEnv.wysiwyg < textOnlyDom.next
      ∧ ∃ f st1, getRange sampleEnv (mkSt textOnlyDom (some emptySel) none none)
            = (Except.ok ⟨f, 0, f, 0⟩, st1)
          ∧ st1.range = none
          ∧ f = 3
          ∧ childNodes st1.dom 1 = [2, 3]
          ∧ childNodes st1.dom 3 = [4] := by
  refine ⟨rfl, by decide, by decide, ?_⟩
  obtain ⟨f, st1, h1, h2, _, _, h5⟩ :=
    getRange_cached_or_default sampleEnv (mkSt textOnlyDom (some emptySel) none none)
  have h6 : f = 3 ∧ (st1.dom.nodes f).nodeName = "P" ∧ (st1.dom.nodes (f + 1)).nodeName = "BR"
      ∧ (sampleEnv.wysiwyg < textOnlyDom.next →
          childNodes st1.dom sampleEnv.wysiwyg = childNodes textOnlyDom sampleEnv.wysiwyg ++ [f]
            ∧ childNodes st1.dom f = [f + 1]) := h5
  obtain ⟨hf, _, _, hch⟩ := h6
  obtain ⟨c1, c2⟩ := hch (by decide)
  subst hf
  exact ⟨3, st1, h1, h2, rfl, c1, c2⟩

theorem setRange_getRange_roundtrip_witness :
    (mkSt helloDom (some emptySel) none none).selection = some emptySel
      ∧ accepts helloDom 3 (hostOffset (min 2 (textLength helloDom 3))) = true
      ∧ accepts helloDom 3 (hostOffset (min 9 (textLength helloDom 3))) = true
      ∧ ∃ st1, setRange sampleEnv (mkSt helloDom (some emptySel) none none) (some 3) 2 (some 3) 9
            = (Except.ok (), st1)
          ∧ getRange sampleEnv st1 = (Except.ok ⟨3, 2, 3, 5⟩, st1) :=
  ⟨rfl, by decide, by decide,
    (setRange_getRange_roundtrip sampleEnv (mkSt helloDom (some emptySel) none none) emptySel
      3 2 3 9 rfl (by decide) (by decide)).1⟩

theorem setRange_clamps_offsets_witness :
    ∃ rest, (setRange sampleEnv (mkSt helloDom (some emptySel) none none)
        (some 3) 2 (some 3) 9).2.log =
      [] ++ Call.createRange :: Call.setStart 3 (min 2 (textLength helloDom 3))
        :: (if accepts helloDom 3 (hostOffset (min 2 (textLength helloDom 3))) then
              Call.setEnd 3 (min 9 (textLength helloDom 3)) :: rest
            else Call.warn Err.indexSize :: rest) :=
  setRange_clamps_offsets sampleEnv (mkSt helloDom (some emptySel) none none) 3 2 3 9

theorem setRange_absorbs_host_failure_witness :
    ¬ (accepts helloDom 2 (hostOffset (min 5 (textLength helloDom 2))) = true
        ∧ accepts helloDom 2 (hostOffset (min 5 (textLength helloDom 2))) = true)
      ∧ ∃ st0 st1, Settled (mkSt helloDom (some emptySel) none none) st0
        ∧ setRange sampleEnv (mkSt helloDom (some emptySel) none none) (some 2) 5 (some 2) 5 =
            nativeFocus sampleEnv (st0.record (Call.warn Err.indexSize))
        ∧ nativeFocus sampleEnv (st0.record (Call.warn Err.indexSize)) = (Except.ok (), st1)
        ∧ st1.selection = (mkSt helloDom (some emptySel) none none).selection
        ∧ Grows (mkSt helloDom (some emptySel) none none) st1
        ∧ ∀ st2, (nativeFocus sampleEnv st2).1 = Except.ok () :=
  ⟨by decide,
    setRange_absorbs_host_failure sampleEnv (mkSt helloDom (some emptySel) none none)
      2 5 2 5 (by decide)⟩

theorem getRange_on_empty_surface_witness :
    (mkSt emptyDom (some emptySel) none none).range = none
      ∧ childNodes emptyDom 1 = []
      ∧ sampleEnv.wysiwyg < emptyDom.next
      ∧ ∃ st1, getRange sampleEnv (mkSt emptyDom (some emptySel) none none)
            = (Except.ok ⟨2, 0, 2, 0⟩, st1)
        ∧ Range.collapsed ⟨2, 0, 2, 0⟩ = true
        ∧ childNodes st1.dom 1 = [2]
        ∧ (st1.dom.nodes 2).nodeName = "P"
        ∧ childNodes st1.dom 2 = [3]
        ∧ (st1.dom.nodes 3).nodeName = "BR" :=
  ⟨rfl, rfl, by decide,
    getRange_on_empty_surface sampleEnv (mkSt emptyDom (some emptySel) none none) rfl rfl
      (by decide)⟩

/-! ## The toolbar loop of `removeRange` -/

theorem removeRangeStep_frame (env : Env) (st : St) (key : String) :
    (removeRangeStep env st key).dom = st.dom
      ∧ (removeRangeStep env st key).selection = st.selection
      ∧ (removeRangeStep env st key).range = st.range
      ∧ (removeRangeStep env st key).selectionNode = st.selectionNode := by
  unfold removeRangeStep
  split_ifs <;> exact ⟨rfl, rfl, rfl, rfl⟩

theorem removeRangeLoop_frame (env : Env) (keys : List String) (st : St) :
    (keys.foldl (removeRangeStep env) st).dom = st.dom
      ∧ (keys.foldl (removeRangeStep env) st).selection = st.selection
      ∧ (keys.foldl (removeRangeStep env) st).range = st.range
      ∧ (keys.foldl (removeRangeStep env) st).selectionNode = st.selectionNode := by
  induction keys generalizing st with
  | nil => exact ⟨rfl, rfl, rfl, rfl⟩
  | cons k ks ih =>
    obtain ⟨h1, h2, h3, h4⟩ := removeRangeStep_frame env st k
    obtain ⟨i1, i2, i3, i4⟩ := ih (removeRangeStep env st k)
    exact ⟨i1.trans h1, i2.trans h2, i3.trans h3, i4.trans h4⟩

/-- Whatever the host selection, `removeRange` leaves both cached fields absent
and the document as it was. -/
theorem removeRange_frame (env : Env) (st : St) :
    (removeRange env st).2.range = none ∧ (removeRange env st).2.selectionNode = none
      ∧ (removeRange env st).2.dom = st.dom := by
  unfold removeRange getSelection
  cases hsel : st.selection with
  | none => exact ⟨rfl, rfl, rfl⟩
  | some sel =>
    exact ⟨(removeRangeLoop_frame env _ _).2.2.1.trans rfl,
      (removeRangeLoop_frame env _ _).2.2.2.trans rfl,
      (removeRangeLoop_frame env _ _).1.trans rfl⟩

/-- C7, as the code has it: after `removeRange()` both cached fields are
absent, and the `getSelectionNode()` that follows reads the document instead
of the cleared cache: when the scan below the surface's first child finds a
leaf or text node, that node is returned and cached, whichever node was cached
before. -/
theorem removeRange_clears_cache (env : Env) (st : St) :
    (removeRange env st).2.range = none ∧ (removeRange env st).2.selectionNode = none
      ∧ ∀ c, env.getChildElement st.dom (firstChild st.dom env.wysiwyg) (leafOrText st.dom)
            false = some c →
          (getSelectionNode env (removeRange env st).2).1 = Except.ok (some c)
            ∧ (getSelectionNode env (removeRange env st).2).2.selectionNode = some c := by
  obtain ⟨hr, hn, hd⟩ := removeRange_frame env st
  refine ⟨hr, hn, ?_⟩
  intro c hc
  rw [← hd] at hc
  simp [getSelectionNode, isWysiwygDivOpt, deriveSelectionNode, hn, hc]

/-- C7, as stated, fails: with the caret in the text of the only paragraph, the
text node is the cached selection node; `removeRange()` returns normally and
the `getSelectionNode()` that follows returns that same text node. -/
theorem getSelectionNode_after_removeRange_returns_same_node :
    (mkSt helloDom (some ⟨[⟨3, 1, 3, 1⟩], some 3, some 3⟩) (some ⟨3, 1, 3, 1⟩) (some 3)).selectionNode
        = some 3
      ∧ (removeRange sampleEnv
          (mkSt helloDom (some ⟨[⟨3, 1, 3, 1⟩], some 3, some 3⟩) (some ⟨3, 1, 3, 1⟩) (some 3))).1
        = Except.ok ()
      ∧ (getSelectionNode sampleEnv (removeRange sampleEnv
          (mkSt helloDom (some ⟨[⟨3, 1, 3, 1⟩], some 3, some 3⟩) (some ⟨3, 1, 3, 1⟩)
            (some 3))).2).1
        = Except.ok (some 3) :=
  ⟨rfl, rfl, rfl⟩

theorem findEl_modifyEl_same (cm : List (String × ToolEl)) (k : String) (f : ToolEl → ToolEl) :
    findEl (modifyEl cm k f) k = (findEl cm k).map f := by
  induction cm with
  | nil => rfl
  | cons e es ih =>
    obtain ⟨a, b⟩ := e
    by_cases h : a = k
    · subst h; simp [findEl, modifyEl]
    · have h2 : ¬ k = a := fun h3 => h h3.symm
      simp [findEl, modifyEl, h, h2, ih]

theorem findEl_modifyEl_other (cm : List (String × ToolEl)) (k x : String) (f : ToolEl → ToolEl)
    (hx : x ≠ k) : findEl (modifyEl cm k f) x = findEl cm x := by
  induction cm with
  | nil => rfl
  | cons e es ih =>
    obtain ⟨a, b⟩ := e
    by_cases h : a = k
    · subst h; simp [findEl, modifyEl, hx, ih]
    · simp [findEl, modifyEl, h, ih]

theorem keys_modifyEl (cm : List (String × ToolEl)) (k : String) (f : ToolEl → ToolEl) :
    (modifyEl cm k f).map (fun e => e.1) = cm.map (fun e => e.1) := by
  induction cm with
  | nil => rfl
  | cons e es ih =>
    obtain ⟨a, b⟩ := e
    by_cases h : a = k <;> simp [modifyEl, h, ih]

theorem mem_keys_of_findEl (cm : List (String × ToolEl)) (k : String) (e : ToolEl)
    (h : findEl cm k = some e) : k ∈ cm.map (fun e => e.1) := by
  induction cm with
  | nil => simp [findEl] at h
  | cons a as ih =>
    obtain ⟨a1, a2⟩ := a
    by_cases h3 : k = a1
    · simp [h3]
    · simp only [findEl, h3, if_false] at h
      exact List.mem_cons_of_mem _ (ih h)

theorem removeRangeStep_keys (env : Env) (st : St) (key : String) :
    (removeRangeStep env st key).commandMap.map (fun e => e.1) = st.commandMap.map (fun e => e.1) := by
  unfold removeRangeStep
  split_ifs <;> simp [St.record, keys_modifyEl]

theorem removeRangeLoop_keys (env : Env) (keys : List String) (st : St) :
    (keys.foldl (removeRangeStep env) st).commandMap.map (fun e => e.1)
      = st.commandMap.map (fun e => e.1) := by
  induction keys generalizing st with
  | nil => rfl
  | cons k ks ih => exact (ih _).trans (removeRangeStep_keys env st k)

/-- A property kept by every turn of the loop holds at its end. -/
theorem removeRangeLoop_keeps (env : Env) (Q : St → Prop)
    (hQ : ∀ st k, Q st → Q (removeRangeStep env st k)) (keys : List String) (st : St)
    (h : Q st) : Q (keys.foldl (removeRangeStep env) st) := by
  induction keys generalizing st with
  | nil => exact h
  | cons k ks ih => exact ih _ (hQ st k h)

/-- A property set up by the turn for `k0` and kept by every turn holds at
the end of a loop that visits `k0`. -/
theorem removeRangeLoop_reaches (env : Env) (I Q : St → Prop) (k0 : String)
    (hI : ∀ st k, I st → I (removeRangeStep env st k))
    (hQ : ∀ st k, I st → Q st → Q (removeRangeStep env st k))
    (hE : ∀ st, I st → Q (removeRangeStep env st k0))
    (keys : List String) (st : St) (hk : k0 ∈ keys) (h : I st) :
    Q (keys.foldl (removeRangeStep env) st) := by
  induction keys generalizing st with
  | nil => cases hk
  | cons k ks ih =>
    by_cases hkk : k0 = k
    · subst hkk
      have h2 : I (removeRangeStep env st k0) ∧ Q (removeRangeStep env st k0) :=
        ⟨hI st k0 h, hE st h⟩
      exact (removeRangeLoop_keeps env (fun s => I s ∧ Q s)
        (fun s k hs => ⟨hI s k hs.1, hQ s k hs.1 hs.2⟩) ks _ h2).2
    · have hk2 : k0 ∈ ks := by
        rcases List.mem_cons.mp hk with h3 | h3
        · exact absurd h3 hkk
        · exact h3
      exact ih _ hk2 (hI st k h)

theorem removeRangeStep_hasPair (env : Env) (st : St) (k : String) (h : HasPair st) :
    HasPair (removeRangeStep env st k) := by
  obtain ⟨h1, h2⟩ := h
  unfold removeRangeStep
  split_ifs
  · exact ⟨h1, h2⟩
  · refine ⟨?_, ?_⟩
    · simp only [findEl_modifyEl_same]; simpa using h1
    · simp only [findEl_modifyEl_other _ "OUTDENT" "INDENT" _ (by decide)]; exact h2
  · refine ⟨?_, ?_⟩
    · simp only [findEl_modifyEl_other _ "INDENT" "OUTDENT" _ (by decide)]; exact h1
    · simp only [findEl_modifyEl_same]; simpa using h2
  · refine ⟨?_, ?_⟩
    · by_cases hk : "OUTDENT" = k
      · subst hk; simp only [findEl_modifyEl_same]; simpa using h1
      · simp only [findEl_modifyEl_other _ k "OUTDENT" _ hk]; exact h1
    · by_cases hk : "INDENT" = k
      · subst hk; simp only [findEl_modifyEl_same]; simpa using h2
      · simp only [findEl_modifyEl_other _ k "INDENT" _ hk]; exact h2

theorem removeRange_present (env : Env) (st : St) (sel : Sel) (hsel : st.selection = some sel) :
    removeRange env st =
      (Except.ok (), (st.commandMap.map (fun e => e.1)).foldl (removeRangeStep env)
        { st with
          selection := some sel.removeAllRanges
          range := none
          selectionNode := none
          log := st.log ++ [Call.removeAllRanges] }) := by
  simp [removeRange, getSelection, hsel, St.record]

theorem removeRangeStep_outdent_kept (env : Env) (st : St) (k : String)
    (h : ∃ e, findEl st.commandMap "OUTDENT" = some e ∧ e.disabled = some "true") :
    ∃ e, findEl (removeRangeStep env st k).commandMap "OUTDENT" = some e
      ∧ e.disabled = some "true" := by
  obtain ⟨e, he, hd⟩ := h
  unfold removeRangeStep
  split_ifs
  · exact ⟨e, he, hd⟩
  · exact ⟨setDisabled e, by simp [findEl_modifyEl_same, he], rfl⟩
  · exact ⟨e, by
      simp only [findEl_modifyEl_other _ "INDENT" "OUTDENT" _ (by decide)]; exact he, hd⟩
  · by_cases hk : "OUTDENT" = k
    · subst hk
      exact ⟨removeClass e "active", by simp [findEl_modifyEl_same, he], hd⟩
    · exact ⟨e, by simp only [findEl_modifyEl_other _ k "OUTDENT" _ hk]; exact he, hd⟩

theorem removeRangeStep_indent_kept (env : Env) (st : St) (k : String)
    (h : ∃ e, findEl st.commandMap "INDENT" = some e ∧ e.disabled = none) :
    ∃ e, findEl (removeRangeStep env st k).commandMap "INDENT" = some e
      ∧ e.disabled = none := by
  obtain ⟨e, he, hd⟩ := h
  unfold removeRangeStep
  split_ifs
  · exact ⟨e, he, hd⟩
  · exact ⟨e, by
      simp only [findEl_modifyEl_other _ "OUTDENT" "INDENT" _ (by decide)]; exact he, hd⟩
  · exact ⟨removeDisabled e, by simp [findEl_modifyEl_same, he], rfl⟩
  · by_cases hk : "INDENT" = k
    · subst hk
      exact ⟨removeClass e "active", by simp [findEl_modifyEl_same, he], hd⟩
    · exact ⟨e, by simp only [findEl_modifyEl_other _ k "INDENT" _ hk]; exact he, hd⟩

theorem removeRangeStep_unmarked_kept (env : Env) (st : St) (x k : String)
    (hxo : testOUTDENT x = false) (hxi : testINDENT x = false)
    (h : ∀ e, findEl st.commandMap x = some e → "active" ∉ e.classes) :
    ∀ e, findEl (removeRangeStep env st k).commandMap x = some e → "active" ∉ e.classes := by
  have h1 : x ≠ "OUTDENT" := by
    intro hx; subst hx; revert hxo; decide
  have h2 : x ≠ "INDENT" := by
    intro hx; subst hx; revert hxi; decide
  unfold removeRangeStep
  split_ifs
  · exact h
  · intro e he
    rw [findEl_modifyEl_other _ "OUTDENT" x _ h1] at he
    exact h e he
  · intro e he
    rw [findEl_modifyEl_other _ "INDENT" x _ h2] at he
    exact h e he
  · intro e he
    by_cases hk : x = k
    · subst hk
      simp only [findEl_modifyEl_same] at he
      cases hf : findEl st.commandMap x with
      | none => simp [hf] at he
      | some e0 =>
        simp only [hf, Option.map_some', Option.some.injEq] at he
        subst he
        simp [removeClass]
    · rw [findEl_modifyEl_other _ k x _ hk] at he
      exact h e he

theorem removeRangeStep_unmarks (env : Env) (st : St) (x : String)
    (hx : x ∉ env.activePlugins)
    (hxo : testOUTDENT x = false) (hxi : testINDENT x = false) :
    ∀ e, findEl (removeRangeStep env st x).commandMap x = some e → "active" ∉ e.classes := by
  have ha : env.activePlugins.contains x = false := by simpa using hx
  intro e he
  simp only [removeRangeStep, ha, hxo, hxi, Bool.and_false, Bool.false_eq_true, if_false,
    findEl_modifyEl_same] at he
  cases hf : findEl st.commandMap x with
  | none => simp [hf] at he
  | some e0 =>
    simp only [hf, Option.map_some', Option.some.injEq] at he
    subst he
    simp [removeClass]

/-- C8, as the code has it: with a host selection object present, both
indentation commands registered and neither of the two names in the active
set, `removeRange()` returns normally, the OUTDENT element then carries the
`disabled` attribute and the INDENT element does not, whatever their state
before; and every command outside the active set whose name is not OUTDENT or
INDENT in any letter case has no `active` marker afterwards. -/
theorem removeRange_indent_pair (env : Env) (st : St) (sel : Sel)
    (hsel : st.selection = some sel)
    (hO : (findEl st.commandMap "OUTDENT").isSome = true)
    (hI : (findEl st.commandMap "INDENT").isSome = true)
    (haO : "OUTDENT" ∉ env.activePlugins) (haI : "INDENT" ∉ env.activePlugins) :
    (removeRange env st).1 = Except.ok ()
      ∧ (∃ e, findEl (removeRange env st).2.commandMap "OUTDENT" = some e
          ∧ e.disabled = some "true")
      ∧ (∃ e, findEl (removeRange env st).2.commandMap "INDENT" = some e
          ∧ e.disabled = none)
      ∧ ∀ k e, k ∉ env.activePlugins → testOUTDENT k = false → testINDENT k = false →
          findEl (removeRange env st).2.commandMap k = some e → "active" ∉ e.classes := by
  rw [removeRange_present env st sel hsel]
  have hpair : HasPair { st with
      selection := some sel.removeAllRanges
      range := none
      selectionNode := none
      log := st.log ++ [Call.removeAllRanges] } := ⟨hO, hI⟩
  have htO : testOUTDENT "OUTDENT" = true := by decide
  have htI : testINDENT "INDENT" = true := by decide
  have htOI : testOUTDENT "INDENT" = false := by decide
  refine ⟨rfl, ?_, ?_, ?_⟩
  · obtain ⟨e0, he0⟩ := Option.isSome_iff_exists.mp hO
    refine removeRangeLoop_reaches env HasPair
      (fun s => ∃ e, findEl s.commandMap "OUTDENT" = some e ∧ e.disabled = some "true")
      "OUTDENT" (removeRangeStep_hasPair env)
      (fun s k _ hq => removeRangeStep_outdent_kept env s k hq) ?_ _ _
      (mem_keys_of_findEl st.commandMap "OUTDENT" e0 he0) hpair
    intro s hs
    obtain ⟨e, he⟩ := Option.isSome_iff_exists.mp hs.1
    refine ⟨setDisabled e, ?_, rfl⟩
    simp [removeRangeStep, haO, hs.1, htO, findEl_modifyEl_same, he]
  · obtain ⟨e0, he0⟩ := Option.isSome_iff_exists.mp hI
    refine removeRangeLoop_reaches env HasPair
      (fun s => ∃ e, findEl s.commandMap "INDENT" = some e ∧ e.disabled = none)
      "INDENT" (removeRangeStep_hasPair env)
      (fun s k _ hq => removeRangeStep_indent_kept env s k hq) ?_ _ _
      (mem_keys_of_findEl st.commandMap "INDENT" e0 he0) hpair
    intro s hs
    obtain ⟨e, he⟩ := Option.isSome_iff_exists.mp hs.2
    refine ⟨removeDisabled e, ?_, rfl⟩
    simp [removeRangeStep, haI, hs.2, htI, htOI, findEl_modifyEl_same, he]
  · intro k e hk hko hki hf
    have hmem : k ∈ st.commandMap.map (fun e => e.1) := by
      have h1 := mem_keys_of_findEl _ k e hf
      rw [removeRangeLoop_keys] at h1
      exact h1
    exact removeRangeLoop_reaches env (fun _ => True)
      (fun s => ∀ e, findEl s.commandMap k = some e → "active" ∉ e.classes) k
      (fun _ _ _ => trivial)
      (fun s k2 _ hq => removeRangeStep_unmarked_kept env s k k2 hko hki hq)
      (fun s _ => removeRangeStep_unmarks env s k hk hko hki) _ _ hmem trivial e hf

/-- C8, as stated, fails: with OUTDENT and INDENT both in the active set, the
loop hands them to their plugin hooks; OUTDENT ends without the `disabled`
attribute, and the command registered as `indent`, which is not in the active
set, keeps its `active` marker. -/
theorem removeRange_skips_active_indent_pair :
    (removeRange (activeEnv ["OUTDENT", "INDENT"])
        (toolbarSt [("OUTDENT", ⟨[], none⟩), ("INDENT", ⟨[], some "true"⟩),
          ("indent", ⟨["active"], none⟩)])).1 = Except.ok ()
      ∧ findEl (removeRange (activeEnv ["OUTDENT", "INDENT"])
          (toolbarSt [("OUTDENT", ⟨[], none⟩), ("INDENT", ⟨[], some "true"⟩),
            ("indent", ⟨["active"], none⟩)])).2.commandMap "OUTDENT" = some ⟨[], none⟩
      ∧ findEl (removeRange (activeEnv ["OUTDENT", "INDENT"])
          (toolbarSt [("OUTDENT", ⟨[], none⟩), ("INDENT", ⟨[], some "true"⟩),
            ("indent", ⟨["active"], none⟩)])).2.commandMap "indent"
          = some ⟨["active"], none⟩ :=
  ⟨rfl, by decide, by decide⟩

theorem removeRange_indent_pair_witness :
    (toolbarSt [("B", ⟨["active"], none⟩), ("OUTDENT", ⟨["active"], none⟩),
        ("INDENT", ⟨[], some "true"⟩)]).selection = some emptySel
      ∧ "OUTDENT" ∉ (activeEnv ["link"]).activePlugins
      ∧ "INDENT" ∉ (activeEnv ["link"]).activePlugins
      ∧ (removeRange (activeEnv ["link"])
          (toolbarSt [("B", ⟨["active"], none⟩), ("OUTDENT", ⟨["active"], none⟩),
            ("INDENT", ⟨[], some "true"⟩)])).1 = Except.ok ()
      ∧ (∃ e, findEl (removeRange (activeEnv ["link"])
            (toolbarSt [("B", ⟨["active"], none⟩), ("OUTDENT", ⟨["active"], none⟩),
              ("INDENT", ⟨[], some "true"⟩)])).2.commandMap "OUTDENT" = some e
          ∧ e.disabled = some "true")
      ∧ (∃ e, findEl (removeRange (activeEnv ["link"])
            (toolbarSt [("B", ⟨["active"], none⟩), ("OUTDENT", ⟨["active"], none⟩),
              ("INDENT", ⟨[], some "true"⟩)])).2.commandMap "INDENT" = some e
          ∧ e.disabled = none)
      ∧ ∀ k e, k ∉ (activeEnv ["link"]).activePlugins → testOUTDENT k = false →
          testINDENT k = false →
          findEl (removeRange (activeEnv ["link"])
            (toolbarSt [("B", ⟨["active"], none⟩), ("OUTDENT", ⟨["active"], none⟩),
              ("INDENT", ⟨[], some "true"⟩)])).2.commandMap k = some e →
          "active" ∉ e.classes :=
  ⟨rfl, by decide, by decide,
    removeRange_indent_pair (activeEnv ["link"])
      (toolbarSt [("B", ⟨["active"], none⟩), ("OUTDENT", ⟨["active"], none⟩),
        ("INDENT", ⟨[], some "true"⟩)]) emptySel rfl (by decide) (by decide) (by decide)
      (by decide)⟩

/-! ## `getRange_addLine` -/

theorem find_congr_on (p q : NodeId → Bool) (cs : List NodeId)
    (h : ∀ c ∈ cs, p c = q c) : cs.find? p = cs.find? q := by
  induction cs with
  | nil => rfl
  | cons c cs ih =>
    have hc : p c = q c := h c (List.mem_cons_self c cs)
    have ih2 := ih (fun x hx => h x (List.mem_cons_of_mem c hx))
    simp [List.find?, hc, ih2]

/-- Where `insertAt` puts the new child when the reference is the first child
passing the test `p`: right after the run of leading children that fail it,
right before that first passing child. -/
theorem insertAt_first (p : NodeId → Bool) (child : NodeId) (cs : List NodeId) :
    ∃ pre post, cs = pre ++ post ∧ (∀ c ∈ pre, p c = false)
      ∧ post.head? = cs.find? p
      ∧ (match cs.find? p with
          | none => cs ++ [child]
          | some r => insertAt child r cs) = pre ++ child :: post := by
  induction cs with
  | nil => exact ⟨[], [], rfl, by simp, rfl, rfl⟩
  | cons c cs ih =>
    cases hp : p c with
    | true =>
      refine ⟨[], c :: cs, rfl, by simp, ?_, ?_⟩
      · simp [List.find?, hp]
      · simp [List.find?, hp, insertAt]
    | false =>
      obtain ⟨pre, post, h1, h2, hh, h3⟩ := ih
      refine ⟨c :: pre, post, by simp [h1], ?_, ?_, ?_⟩
      · intro x hx
        rcases List.mem_cons.mp hx with hx | hx
        · subst hx; exact hp
        · exact h2 x hx
      · simp only [List.find?, hp]
        exact hh
      · cases hf : cs.find? p with
        | none =>
          rw [hf] at h3
          simp only [List.find?, hp, hf]
          simpa using h3
        | some r =>
          rw [hf] at h3
          have hr : p r = true := List.find?_some hf
          have hcr : c ≠ r := by
            intro hcr; subst hcr; rw [hp] at hr; cases hr
          simp only [List.find?, hp, hf]
          simp only [insertAt, hcr, if_false]
          simpa using h3

theorem find_after_failing (p : NodeId → Bool) (pre post : List NodeId) (x : NodeId)
    (h : ∀ c ∈ pre, p c = false) (hx : p x = true) :
    (pre ++ x :: post).find? p = some x := by
  induction pre with
  | nil => simp [List.find?, hx]
  | cons c cs ih =>
    have hc : p c = false := h c (List.mem_cons_self c cs)
    simp only [List.cons_append, List.find?, hc]
    exact ih (fun y hy => h y (List.mem_cons_of_mem c hy))

theorem getRange_addLine_void (env : Env) (st : St) (range : Range)
    (hv : _selectionVoid env st range = true) :
    getRange_addLine env st range =
      (match setRange env { st with dom := placeholderDom env st.dom }
          (firstElementChild (placeholderDom env st.dom) st.dom.next) 0
          (firstElementChild (placeholderDom env st.dom) st.dom.next) 1 with
        | (Except.error e, st3) => (Except.error e, st3)
        | (Except.ok _, st3) => (Except.ok st3.range, st3)) := by
  simp only [getRange_addLine, hv, if_true]
  rfl

theorem placeholderDom_paragraph (env : Env) (d : Dom) (hw : env.wysiwyg < d.next) :
    childNodes (placeholderDom env d) d.next = [d.next + 1]
      ∧ childNodes (placeholderDom env d) (d.next + 1) = []
      ∧ ((placeholderDom env d).nodes d.next).nodeName = "P"
      ∧ ((placeholderDom env d).nodes (d.next + 1)).nodeName = "BR"
      ∧ ((placeholderDom env d).nodes d.next).kind = NodeKind.element
      ∧ ((placeholderDom env d).nodes (d.next + 1)).kind = NodeKind.element := by
  have h1 : d.next ≠ env.wysiwyg := (Nat.ne_of_lt hw).symm
  have h2 : d.next + 1 ≠ env.wysiwyg := (Nat.ne_of_lt (Nat.lt_succ_of_lt hw)).symm
  unfold placeholderDom
  refine ⟨?_, ?_, ?_, ?_, ?_, ?_⟩
  · simp [childNodes_insertBefore, childNodes_createParagraphWithBreak, h1]
  · simp [childNodes_insertBefore, childNodes_createParagraphWithBreak, h2]
  · simp [nodeName_insertBefore, nodeName_createParagraphWithBreak]
  · simp [nodeName_insertBefore, nodeName_createParagraphWithBreak]
  · simp [kind_insertBefore, kind_createParagraphWithBreak]
  · simp [kind_insertBefore, kind_createParagraphWithBreak]

theorem placeholderDom_surface (env : Env) (d : Dom) (hw : env.wysiwyg < d.next)
    (hch : ∀ c ∈ childNodes d env.wysiwyg, c < d.next) :
    ∃ pre post, childNodes d env.wysiwyg = pre ++ post
      ∧ childNodes (placeholderDom env d) env.wysiwyg = pre ++ d.next :: post
      ∧ (∀ c ∈ pre, isElement d c = false)
      ∧ post.head? = firstElementChild d env.wysiwyg
      ∧ firstElementChild (placeholderDom env d) env.wysiwyg = some d.next := by
  have h1 : env.wysiwyg ≠ d.next := Nat.ne_of_lt hw
  have h2 : env.wysiwyg ≠ d.next + 1 := Nat.ne_of_lt (Nat.lt_succ_of_lt hw)
  have hcs : childNodes (createParagraphWithBreak d).2.2 env.wysiwyg = childNodes d env.wysiwyg := by
    simp [childNodes_createParagraphWithBreak, h1, h2]
  have hkind : ∀ c ∈ childNodes d env.wysiwyg,
      isElement (createParagraphWithBreak d).2.2 c = isElement d c := by
    intro c hc
    have hlt := hch c hc
    have e1 : c ≠ d.next := Nat.ne_of_lt hlt
    have e2 : c ≠ d.next + 1 := Nat.ne_of_lt (Nat.lt_succ_of_lt hlt)
    simp [isElement, kind_createParagraphWithBreak, e1, e2]
  have hfe : firstElementChild (createParagraphWithBreak d).2.2 env.wysiwyg
      = (childNodes d env.wysiwyg).find? (isElement d) := by
    unfold firstElementChild
    rw [hcs]
    exact find_congr_on _ _ _ hkind
  obtain ⟨pre, post, hsplit, hpre, hhead, hins⟩ :=
    insertAt_first (isElement d) d.next (childNodes d env.wysiwyg)
  have hch2 : childNodes (placeholderDom env d) env.wysiwyg = pre ++ d.next :: post := by
    unfold placeholderDom
    rw [childNodes_insertBefore, hfe, hcs]
    simpa using hins
  refine ⟨pre, post, hsplit, hch2, hpre, hhead, ?_⟩
  unfold firstElementChild
  rw [hch2]
  apply find_after_failing
  · intro c hc
    have hmem : c ∈ childNodes d env.wysiwyg := by
      rw [hsplit]; exact List.mem_append_left _ hc
    have hlt := hch c hmem
    have e1 : c ≠ d.next := Nat.ne_of_lt hlt
    have e2 : c ≠ d.next + 1 := Nat.ne_of_lt (Nat.lt_succ_of_lt hlt)
    have := hpre c hc
    unfold placeholderDom
    simpa [isElement, kind_insertBefore, kind_createParagraphWithBreak, e1, e2] using this
  · simp [isElement, (placeholderDom_paragraph env d hw).2.2.2.2.1]

/-- What `getRange_addLine` does, with a host selection object present and a
well-formed surface: a range whose common ancestor is a FIGURE element or a
media component of the resolver is void; for every void range the call
returns the newly cached range, the collapsed range at offset 0 of the line
break of one new paragraph, and that paragraph is inserted right before the
surface's first element child (after the leading non-element children, at the
end when there is no element child); for a range that is not void the call
returns its argument and leaves the whole state unchanged. -/
theorem getRange_addLine_inserts_before_first_element (env : Env) (st : St) (sel : Sel)
    (range : Range) (hsel : st.selection = some sel) (hwf : WellFormed env st) :
    ((st.dom.nodes (range.commonAncestorContainer st.dom)).nodeName = "FIGURE"
        ∨ env.isMediaComponent st.dom (range.commonAncestorContainer st.dom) = true →
      _selectionVoid env st range = true)
    ∧ (_selectionVoid env st range = true →
        ∃ st1 pre post,
          getRange_addLine env st range = (Except.ok st1.range, st1)
          ∧ st1.range = some ⟨st.dom.next + 1, 0, st.dom.next + 1, 0⟩
          ∧ childNodes st.dom env.wysiwyg = pre ++ post
          ∧ childNodes st1.dom env.wysiwyg = pre ++ st.dom.next :: post
          ∧ (∀ c ∈ pre, isElement st.dom c = false)
          ∧ post.head? = firstElementChild st.dom env.wysiwyg
          ∧ firstElementChild st1.dom env.wysiwyg = some st.dom.next
          ∧ (st1.dom.nodes st.dom.next).nodeName = "P"
          ∧ childNodes st1.dom st.dom.next = [st.dom.next + 1]
          ∧ (st1.dom.nodes (st.dom.next + 1)).nodeName = "BR")
    ∧ (_selectionVoid env st range = false →
        getRange_addLine env st range = (Except.ok (some range), st)) := by
  refine ⟨?_, ?_, ?_⟩
  · intro h
    rcases h with h | h
    · have ht : testFIGURE "FIGURE" = true := by decide
      simp [_selectionVoid, h, ht]
    · simp [_selectionVoid, h]
  · intro hv
    obtain ⟨hp1, hp2, hp3, hp4, _, hp6⟩ := placeholderDom_paragraph env st.dom hwf.1
    obtain ⟨pre, post, hsplit, hch2, hpre, hhead, hfirst⟩ :=
      placeholderDom_surface env st.dom hwf.1 hwf.2
    have hfe : firstElementChild (placeholderDom env st.dom) st.dom.next
        = some (st.dom.next + 1) := by
      simp [firstElementChild, hp1, List.find?, isElement, hp6]
    have htl : textLength (placeholderDom env st.dom) (st.dom.next + 1) = 0 :=
      textLength_childless _ _ hp6 hp2
    have hc0 : clampOffset (placeholderDom env st.dom) (st.dom.next + 1) 0 = 0 := by
      simp [clampOffset, htl]
    have hc1 : clampOffset (placeholderDom env st.dom) (st.dom.next + 1) 1 = 0 := by
      simp [clampOffset, htl]
    obtain ⟨st1, h1, hd, hr, _, _⟩ := setRange_accepted env
      { st with dom := placeholderDom env st.dom } sel (st.dom.next + 1) 0 (st.dom.next + 1) 1
      hsel (by simp only [hc0, hostOffset_zero]; exact accepts_zero _ _)
      (by simp only [hc1, hostOffset_zero]; exact accepts_zero _ _)
    simp only [clampedRange, hc0, hc1, hostOffset_zero, hostRange_same] at hr
    simp only [] at hd
    refine ⟨st1, pre, post, ?_, hr, hsplit, ?_, hpre, hhead, ?_, ?_, ?_, ?_⟩
    · rw [getRange_addLine_void env st range hv, hfe, h1]
    · rw [hd]; exact hch2
    · rw [hd]; exact hfirst
    · rw [hd]; exact hp3
    · rw [hd]; exact hp1
    · rw [hd]; exact hp4
  · intro hv
    simp [getRange_addLine, hv]

/-- C5: the line guarantee of `getRange_addLine` at an input where the code
misses it. The surface starts with a bare text node (node 2) followed by a
figure (node 3), and the range sits on the figure, so its common ancestor is
a FIGURE element and the range is void. The call returns the range on the
line break of the new paragraph (node 4), and the surface's children are then
the text node, the new paragraph, the figure: the new paragraph is the second
child, the first child is still the text node. -/
theorem getRange_addLine_not_first_child :
    (figureDom.nodes (Range.commonAncestorContainer figureDom ⟨3, 0, 3, 0⟩)).nodeName = "FIGURE"
      ∧ _selectionVoid sampleEnv figureSt ⟨3, 0, 3, 0⟩ = true
      ∧ childNodes figureSt.dom 1 = [2, 3]
      ∧ (getRange_addLine sampleEnv figureSt ⟨3, 0, 3, 0⟩).1 = Except.ok (some ⟨5, 0, 5, 0⟩)
      ∧ childNodes (getRange_addLine sampleEnv figureSt ⟨3, 0, 3, 0⟩).2.dom 1 = [2, 4, 3]
      ∧ ((getRange_addLine sampleEnv figureSt ⟨3, 0, 3, 0⟩).2.dom.nodes 4).nodeName = "P"
      ∧ firstChild (getRange_addLine sampleEnv figureSt ⟨3, 0, 3, 0⟩).2.dom 1 = some 2
      ∧ firstChild (getRange_addLine sampleEnv figureSt ⟨3, 0, 3, 0⟩).2.dom 1 ≠ some 4 :=
  ⟨by decide, by decide, by decide, rfl, by decide, by decide, by decide, by decide⟩

/-! ## `focus` -/

theorem accepts_mono (d : Dom) (n : NodeId) (off off1 : Nat) (h : accepts d n off = true)
    (hle : off1 ≤ off) : accepts d n off1 = true := by
  simp only [accepts, decide_eq_true_eq] at h ⊢
  exact Nat.le_trans hle h

theorem hostOffset_clampOffset_le (d : Dom) (n : NodeId) (off : Nat) :
    hostOffset (clampOffset d n off) ≤ off := by
  rw [clampOffset_eq_min]
  unfold hostOffset
  omega

theorem setRange_absent (env : Env) (st : St) (sc : NodeId) (so : Int) (ec : NodeId) (eo : Int)
    (hsel : st.selection = none)
    (hs : accepts st.dom sc (hostOffset (clampOffset st.dom sc so)) = true)
    (he : accepts st.dom ec (hostOffset (clampOffset st.dom ec eo)) = true) :
    ∃ st1, setRange env st (some sc) so (some ec) eo = (Except.error Err.typeError, st1)
      ∧ st1.dom = st.dom ∧ st1.selection = none ∧ st1.range = st.range := by
  unfold setRange
  simp only [createRange]
  rw [buildRange_accepted (st.record Call.createRange) _ sc _ ec _ hs he]
  exact ⟨_, applyRange_absent env _ _ hsel, rfl, hsel, rfl⟩

/-- The `try`/`catch` of `focus` around a `setRange` whose clamped endpoints
the host accepts: the outcome is normal and the document is untouched; with a
selection object present the range is installed and cached, without one the
cached range stays as it was. -/
theorem setRange_or_recover (env : Env) (st : St) (sc : NodeId) (so : Int) (ec : NodeId)
    (eo : Int)
    (hs : accepts st.dom sc (hostOffset (clampOffset st.dom sc so)) = true)
    (he : accepts st.dom ec (hostOffset (clampOffset st.dom ec eo)) = true) :
    ∃ st1,
      (match setRange env st (some sc) so (some ec) eo with
        | (Except.error _, st2) => nativeFocus env st2
        | (Except.ok _, st2) => (Except.ok (), st2)) = (Except.ok (), st1)
      ∧ st1.dom = st.dom
      ∧ (∀ sel, st.selection = some sel →
          st1.range = some (clampedRange st.dom sc so ec eo)
            ∧ st1.selection = some (sel.removeAllRanges.addRange
                (clampedRange st.dom sc so ec eo) env.hostHasExtentNode))
      ∧ (st.selection = none → st1.range = st.range) := by
  cases hsel : st.selection with
  | none =>
    obtain ⟨st2, h2, hd, hn, hr⟩ := setRange_absent env st sc so ec eo hsel hs he
    obtain ⟨st3, h3, hst⟩ := nativeFocus_stable env st2 (Or.inl hn)
    refine ⟨st3, by rw [h2]; exact h3, hst.1.trans hd, ?_, fun _ => hst.2.2.1.trans hr⟩
    intro sel hsome
    cases hsome
  | some sel =>
    obtain ⟨st1, h1, hd, hr, hse, _⟩ := setRange_accepted env st sel sc so ec eo hsel hs he
    refine ⟨st1, by rw [h1], hd, ?_, fun hn => by cases hn⟩
    intro sel2 hsome
    cases hsome
    exact ⟨hr, hse⟩

theorem editorRange_dom (env : Env) (st : St) :
    ∃ st1, _editorRange env st = (Except.ok (), st1) ∧ st1.selection = st.selection
      ∧ st1.dom = recoveredDom env st := by
  cases h : st.selection with
  | none => exact ⟨st, editorRange_none env st h, h, by simp [recoveredDom, h]⟩
  | some sel =>
    cases hr : sel.ranges with
    | nil =>
      exact ⟨_, editorRange_empty env st sel h hr, h, by simp [recoveredDom, h, hr]⟩
    | cons r rs =>
      exact ⟨_, editorRange_live env st sel r rs h hr, h, by simp [recoveredDom, h, hr]⟩

/-- Once the surface has an element child, the default range appends nothing:
deriving it twice changes the document as deriving it once. -/
theorem defaultFocusEl_idem (env : Env) (d : Dom) :
    (defaultFocusEl env (defaultFocusEl env d).2).2 = (defaultFocusEl env d).2 := by
  cases hf : firstElementChild d env.wysiwyg with
  | some el =>
    have h1 : defaultFocusEl env d = (el, d) := by simp [defaultFocusEl, hf]
    rw [h1]
    simp [defaultFocusEl, hf]
  | none =>
    have hd : defaultFocusEl env d =
        (d.next, appendChild (createParagraphWithBreak d).2.2 env.wysiwyg d.next) := by
      simp only [defaultFocusEl, hf]
      rfl
    rw [hd]
    have hk : isElement (appendChild (createParagraphWithBreak d).2.2 env.wysiwyg d.next)
        d.next = true := by
      simp [isElement, kind_appendChild, kind_createParagraphWithBreak]
    have hsome : (firstElementChild
        (appendChild (createParagraphWithBreak d).2.2 env.wysiwyg d.next) env.wysiwyg).isSome
          = true := by
      unfold firstElementChild
      rw [childNodes_appendChild, if_pos rfl, List.find?_isSome]
      exact ⟨d.next, by simp, hk⟩
    obtain ⟨x, hx⟩ := Option.isSome_iff_exists.mp hsome
    simp [defaultFocusEl, hx]

theorem recoveredDom_of_mid (env : Env) (st st1 : St) (h : Mid env st st1) :
    recoveredDom env st1 = recoveredDom env st := by
  obtain ⟨hs, hd⟩ := h
  unfold recoveredDom
  rw [hs]
  by_cases hc : st.selection.map Sel.ranges = some []
  · simp only [hc, if_true]
    rcases hd with hd | hd
    · rw [hd]
    · rw [hd]
      simp only [recoveredDom, hc, if_true]
      exact defaultFocusEl_idem env st.dom
  · simp only [hc, if_false]
    rcases hd with hd | hd
    · exact hd
    · rw [hd]
      simp only [recoveredDom, hc, if_false]

theorem editorRange_mid (env : Env) (st st1 : St) (h : Mid env st st1) :
    ∃ st2, _editorRange env st1 = (Except.ok (), st2) ∧ Mid env st st2
      ∧ st2.dom = recoveredDom env st := by
  obtain ⟨st2, he, hs, hd⟩ := editorRange_dom env st1
  have hd2 : st2.dom = recoveredDom env st := hd.trans (recoveredDom_of_mid env st st1 h)
  exact ⟨st2, he, ⟨hs.trans h.1, Or.inr hd2⟩, hd2⟩

theorem deriveSelectionNode_mid (env : Env) (st st1 : St) (h : Mid env st st1) :
    ∃ v st2, deriveSelectionNode env st1 = (Except.ok v, st2) ∧ Mid env st st2 := by
  unfold deriveSelectionNode
  cases hn : st1.selectionNode with
  | some n => exact ⟨_, _, rfl, h⟩
  | none =>
    cases hc : env.getChildElement st1.dom (firstChild st1.dom env.wysiwyg) (leafOrText st1.dom)
        false with
    | some c => exact ⟨_, _, rfl, h⟩
    | none =>
      obtain ⟨st2, he, hm, _⟩ := editorRange_mid env st st1 h
      simp only [he]
      exact ⟨_, _, rfl, hm⟩

theorem getSelectionNode_mid (env : Env) (st st1 : St) (h : Mid env st st1) :
    ∃ v st2, getSelectionNode env st1 = (Except.ok v, st2) ∧ Mid env st st2 := by
  unfold getSelectionNode
  by_cases hw : isWysiwygDivOpt env st1.dom st1.selectionNode = true
  · obtain ⟨st2, he, hm, _⟩ := editorRange_mid env st st1 h
    obtain ⟨v, st3, hd, hm3⟩ := deriveSelectionNode_mid env st st2 hm
    simp only [hw, if_true, he]
    exact ⟨v, st3, hd, hm3⟩
  · simp only [hw]
    exact deriveSelectionNode_mid env st st1 h

/-- What native focus leaves of the document: it ends with `_editorRange`, so
the document is the one `_editorRange` leaves on the state it starts from. -/
theorem nativeFocus_dom (env : Env) (st : St) :
    ∃ st1, nativeFocus env st = (Except.ok (), st1) ∧ st1.selection = st.selection
      ∧ st1.dom = recoveredDom env st := by
  unfold nativeFocus
  obtain ⟨v, st1, hg, hm⟩ := getSelectionNode_mid env st st ⟨rfl, Or.inl rfl⟩
  simp only [hg]
  cases hp : env.getParentElement st1.dom v "figcaption" with
  | none =>
    obtain ⟨st2, he, hm2, hd⟩ := editorRange_mid env st (st1.record (Call.focus env.wysiwyg)) hm
    exact ⟨st2, he, hm2.1, hd⟩
  | some c =>
    obtain ⟨st2, he, hm2, hd⟩ := editorRange_mid env st (st1.record (Call.focus c)) hm
    exact ⟨st2, he, hm2.1, hd⟩

theorem childNodes_defaultFocusEl (env : Env) (d : Dom) (hw : env.wysiwyg < d.next) :
    childNodes (defaultFocusEl env d).2 env.wysiwyg =
      childNodes d env.wysiwyg ++
        (if firstElementChild d env.wysiwyg = none then [d.next] else []) := by
  cases hf : firstElementChild d env.wysiwyg with
  | some el => simp [defaultFocusEl, hf]
  | none =>
    rw [((defaultFocusEl_fresh env d hf).2.2.2.2.2 hw).1]
    simp

/-- The `try`/`catch` of `focus` around a `setRange` whose clamped endpoints
the host rejects: the outcome is normal, and the document is the one the
native focus recovery leaves. -/
theorem setRange_rejected_recover (env : Env) (st : St) (sc : NodeId) (so : Int) (ec : NodeId)
    (eo : Int)
    (h : ¬ (accepts st.dom sc (hostOffset (clampOffset st.dom sc so)) = true
      ∧ accepts st.dom ec (hostOffset (clampOffset st.dom ec eo)) = true)) :
    ∃ st1,
      (match setRange env st (some sc) so (some ec) eo with
        | (Except.error _, st2) => nativeFocus env st2
        | (Except.ok _, st2) => (Except.ok (), st2)) = (Except.ok (), st1)
      ∧ st1.dom = recoveredDom env st := by
  obtain ⟨st0, hb, hst⟩ := buildRange_rejected (st.record Call.createRange)
    ⟨env.document, 0, env.document, 0⟩ sc (clampOffset st.dom sc so) ec
    (clampOffset st.dom ec eo) h
  obtain ⟨st1, hn, _, hd⟩ := nativeFocus_dom env (st0.record (Call.warn Err.indexSize))
  have hset : setRange env st (some sc) so (some ec) eo = (Except.ok (), st1) := by
    unfold setRange
    simp only [createRange]
    rw [hb]
    exact hn
  refine ⟨st1, by rw [hset], ?_⟩
  rw [hd]
  exact recoveredDom_of_mid env st _ ⟨hst.2.1, Or.inl hst.1⟩

theorem focusDom_facts (env : Env) (d : Dom) (hw : env.wysiwyg < d.next) :
    childNodes (focusDom env d) env.wysiwyg = childNodes d env.wysiwyg ++ [d.next]
      ∧ childNodes (focusDom env d) d.next = [d.next + 1]
      ∧ childNodes (focusDom env d) (d.next + 1) = []
      ∧ ((focusDom env d).nodes d.next).nodeName = "P"
      ∧ ((focusDom env d).nodes (d.next + 1)).nodeName = "BR"
      ∧ ((focusDom env d).nodes (d.next + 1)).kind = NodeKind.element := by
  have h1 : env.wysiwyg ≠ d.next := Nat.ne_of_lt hw
  have h2 : env.wysiwyg ≠ d.next + 1 := Nat.ne_of_lt (Nat.lt_succ_of_lt hw)
  unfold focusDom
  refine ⟨?_, ?_, ?_, ?_, ?_, ?_⟩
  · simp [childNodes_appendChild, childNodes_createParagraphWithBreak, h1, h2]
  · simp [childNodes_appendChild, childNodes_createParagraphWithBreak, h1.symm]
  · simp [childNodes_appendChild, childNodes_createParagraphWithBreak, h2.symm]
  · simp [nodeName_appendChild, nodeName_createParagraphWithBreak]
  · simp [nodeName_appendChild, nodeName_createParagraphWithBreak]
  · simp [kind_appendChild, kind_createParagraphWithBreak]

theorem focusTry_eq (env : Env) (st st0 : St) (r : Range)
    (hg : getRange env st = (Except.ok r, st0)) :
    focusTry env st =
      if r.startContainer == r.endContainer && env.isWysiwygDiv st0.dom r.startContainer then
        setRange env { st0 with dom := focusDom env st0.dom } (some (st0.dom.next + 1)) 0
          (some (st0.dom.next + 1)) 0
      else
        setRange env st0 (some r.startContainer) r.startOffset (some r.endContainer)
          r.endOffset := by
  simp only [focusTry, hg]
  rfl

/-- What `getRange` returns and leaves: the cached range and the state as it
is, or the default range with nothing stored and, when the surface has no
element child, one paragraph appended. -/
theorem getRange_total (env : Env) (st : St) (hw : env.wysiwyg < st.dom.next) :
    ∃ r st0, getRange env st = (Except.ok r, st0)
      ∧ st0.selection = st.selection ∧ st0.range = st.range
      ∧ st.dom.next ≤ st0.dom.next
      ∧ childNodes st0.dom env.wysiwyg = childNodes st.dom env.wysiwyg ++
          (if st.range = none ∧ firstElementChild st.dom env.wysiwyg = none then [st.dom.next]
            else [])
      ∧ (st.range = none →
          accepts st0.dom r.startContainer
              (hostOffset (clampOffset st0.dom r.startContainer r.startOffset)) = true
            ∧ accepts st0.dom r.endContainer
              (hostOffset (clampOffset st0.dom r.endContainer r.endOffset)) = true) := by
  cases hr : st.range with
  | some r =>
    refine ⟨r, st, by simp [getRange, hr], rfl, hr, Nat.le_refl _, by simp, ?_⟩
    intro hn
    cases hn
  | none =>
    refine ⟨⟨(defaultFocusEl env st.dom).1, 0, (defaultFocusEl env st.dom).1, 0⟩,
      { st with
        dom := (defaultFocusEl env st.dom).2
        log := st.log ++ [Call.focus env.wysiwyg, Call.createRange,
          Call.setStart (defaultFocusEl env st.dom).1 0,
          Call.setEnd (defaultFocusEl env st.dom).1 0] },
      by simp only [getRange, hr, createDefaultRange_eq], rfl, hr, ?_, ?_, ?_⟩
    · cases hf : firstElementChild st.dom env.wysiwyg with
      | some el => simp [defaultFocusEl, hf]
      | none =>
        simp only []
        rw [(defaultFocusEl_fresh env st.dom hf).2.2.2.2.1]
        exact Nat.le_add_right _ _
    · simp only []
      rw [childNodes_defaultFocusEl env st.dom hw]
      simp
    · intro _
      have hz : ∀ d n, hostOffset (clampOffset d n ((0 : Nat) : Int)) = 0 := by
        intro d n
        have := hostOffset_clampOffset_le d n 0
        omega
      simp only [hz]
      exact ⟨accepts_zero _ _, accepts_zero _ _⟩

theorem focus_visible_unframed (env : Env) (st st1 : St)
    (hvis : env.frameHidden = false) (hfr : env.iframe = false)
    (hx : (match focusTry env st with
            | (Except.error _, st2) => nativeFocus env st2
            | (Except.ok _, st2) => (Except.ok (), st2)) = (Except.ok (), st1)) :
    (focus env st).1 = Except.ok ()
      ∧ (focus env st).2.dom = st1.dom
      ∧ (focus env st).2.range = st1.range
      ∧ (focus env st).2.selection = st1.selection := by
  unfold focus
  simp only [hvis, hfr, Bool.false_eq_true, if_false]
  rw [hx]
  cases env.isBalloon <;> exact ⟨rfl, rfl, rfl, rfl⟩

/-- C6, as the code has it. On a visible surface that is not frame-hosted
`focus()` returns normally. It first reads the current range with
`getRange()`, which itself appends a placeholder paragraph when no range is
cached and the surface has no element child. After that it appends a new
paragraph exactly when the start container and the end container of that
range are the same node and that node is the surface root, whatever the
offsets: the surface then gains one child, a new paragraph holding one line
break, and the live selection and the cached range become the collapsed range
at offset 0 of that line break when a host selection object is present, while
without one the cached range stays as it was. For every other current range
the surface keeps the children `getRange()` left, the whole document being
unchanged when the host accepts the clamped endpoints of the range, except
that the recovery from endpoints the host rejects appends one placeholder
paragraph when the live selection holds no range and the surface has no
element child. -/
theorem focus_paragraph_creation (env : Env) (st : St)
    (hvis : env.frameHidden = false) (hfr : env.iframe = false)
    (hw : env.wysiwyg < st.dom.next) :
    ∃ r st0, getRange env st = (Except.ok r, st0)
      ∧ childNodes st0.dom env.wysiwyg = childNodes st.dom env.wysiwyg ++
          (if st.range = none ∧ firstElementChild st.dom env.wysiwyg = none then [st.dom.next]
            else [])
      ∧ (focus env st).1 = Except.ok ()
      ∧ (r.startContainer = r.endContainer ∧ env.isWysiwygDiv st0.dom r.startContainer = true →
          childNodes (focus env st).2.dom env.wysiwyg
              = childNodes st0.dom env.wysiwyg ++ [st0.dom.next]
            ∧ ((focus env st).2.dom.nodes st0.dom.next).nodeName = "P"
            ∧ childNodes (focus env st).2.dom st0.dom.next = [st0.dom.next + 1]
            ∧ ((focus env st).2.dom.nodes (st0.dom.next + 1)).nodeName = "BR"
            ∧ (∀ sel, st.selection = some sel →
                (focus env st).2.range = some ⟨st0.dom.next + 1, 0, st0.dom.next + 1, 0⟩
                  ∧ (focus env st).2.selection = some (sel.removeAllRanges.addRange
                      ⟨st0.dom.next + 1, 0, st0.dom.next + 1, 0⟩ env.hostHasExtentNode))
            ∧ (st.selection = none → (focus env st).2.range = st.range))
      ∧ (¬ (r.startContainer = r.endContainer
            ∧ env.isWysiwygDiv st0.dom r.startContainer = true) →
          childNodes (focus env st).2.dom env.wysiwyg = childNodes st0.dom env.wysiwyg ++
              (if ¬ (accepts st0.dom r.startContainer
                      (hostOffset (min r.startOffset (textLength st0.dom r.startContainer)))
                        = true
                    ∧ accepts st0.dom r.endContainer
                      (hostOffset (min r.endOffset (textLength st0.dom r.endContainer)))
                        = true)
                  ∧ st.selection.map Sel.ranges = some []
                  ∧ firstElementChild st0.dom env.wysiwyg = none then [st0.dom.next]
                else [])
            ∧ (accepts st0.dom r.startContainer
                  (hostOffset (min r.startOffset (textLength st0.dom r.startContainer))) = true
                ∧ accepts st0.dom r.endContainer
                  (hostOffset (min r.endOffset (textLength st0.dom r.endContainer))) = true →
              (focus env st).2.dom = st0.dom)) := by
  obtain ⟨r, st0, hg, hsel0, hr0, hnext, hch0, _⟩ := getRange_total env st hw
  have hw0 : env.wysiwyg < st0.dom.next := Nat.lt_of_lt_of_le hw hnext
  refine ⟨r, st0, hg, hch0, ?_⟩
  by_cases hc : r.startContainer = r.endContainer
      ∧ env.isWysiwygDiv st0.dom r.startContainer = true
  · have hcb : (r.startContainer == r.endContainer
        && env.isWysiwygDiv st0.dom r.startContainer) = true := by
      rw [hc.2, Bool.and_true]
      exact beq_iff_eq.mpr hc.1
    obtain ⟨f1, f2, f3, f4, f5, f6⟩ := focusDom_facts env st0.dom hw0
    have htl : textLength (focusDom env st0.dom) (st0.dom.next + 1) = 0 :=
      textLength_childless _ _ f6 f3
    have hc0 : clampOffset (focusDom env st0.dom) (st0.dom.next + 1) 0 = 0 := by
      simp [clampOffset, htl]
    obtain ⟨st1, hx, hd, hsel, hnone⟩ := setRange_or_recover env
      { st0 with dom := focusDom env st0.dom } (st0.dom.next + 1) 0 (st0.dom.next + 1) 0
      (by simp only [hc0, hostOffset_zero]; exact accepts_zero _ _)
      (by simp only [hc0, hostOffset_zero]; exact accepts_zero _ _)
    simp only [clampedRange, hc0, hostOffset_zero, hostRange_same] at hsel
    simp only [] at hd hnone
    have hx2 : (match focusTry env st with
            | (Except.error _, st2) => nativeFocus env st2
            | (Except.ok _, st2) => (Except.ok (), st2)) = (Except.ok (), st1) := by
      rw [focusTry_eq env st st0 r hg, if_pos hcb]
      exact hx
    obtain ⟨g1, g2, g3, g4⟩ := focus_visible_unframed env st st1 hvis hfr hx2
    refine ⟨g1, ?_, fun hn => absurd hc hn⟩
    intro _
    rw [g2, g3, g4, hd]
    refine ⟨f1, f4, f2, f5, ?_, ?_⟩
    · intro sel hs
      exact hsel sel (hsel0.trans hs)
    · intro hs
      exact (hnone (hsel0.trans hs)).trans hr0
  · have hcb : (r.startContainer == r.endContainer
        && env.isWysiwygDiv st0.dom r.startContainer) = false := by
      cases hb : (r.startContainer == r.endContainer
        && env.isWysiwygDiv st0.dom r.startContainer)
      · rfl
      · exact absurd (by simpa using hb) hc
    by_cases hacc : accepts st0.dom r.startContainer
          (hostOffset (min r.startOffset (textLength st0.dom r.startContainer))) = true
        ∧ accepts st0.dom r.endContainer
          (hostOffset (min r.endOffset (textLength st0.dom r.endContainer))) = true
    · have hacc2 := hacc
      simp only [← clampOffset_eq_min] at hacc2
      obtain ⟨st1, hx, hd, _, _⟩ := setRange_or_recover env st0 r.startContainer r.startOffset
        r.endContainer r.endOffset hacc2.1 hacc2.2
      have hx2 : (match focusTry env st with
              | (Except.error _, st2) => nativeFocus env st2
              | (Except.ok _, st2) => (Except.ok (), st2)) = (Except.ok (), st1) := by
        rw [focusTry_eq env st st0 r hg, hcb]
        exact hx
      obtain ⟨g1, g2, _, _⟩ := focus_visible_unframed env st st1 hvis hfr hx2
      refine ⟨g1, fun h => absurd h hc, fun _ => ⟨?_, fun _ => g2.trans hd⟩⟩
      rw [g2, hd]
      simp [hacc]
    · have hacc2 := hacc
      simp only [← clampOffset_eq_min] at hacc2
      obtain ⟨st1, hx, hd⟩ := setRange_rejected_recover env st0 r.startContainer r.startOffset
        r.endContainer r.endOffset hacc2
      have hx2 : (match focusTry env st with
              | (Except.error _, st2) => nativeFocus env st2
              | (Except.ok _, st2) => (Except.ok (), st2)) = (Except.ok (), st1) := by
        rw [focusTry_eq env st st0 r hg, hcb]
        exact hx
      obtain ⟨g1, g2, _, _⟩ := focus_visible_unframed env st st1 hvis hfr hx2
      refine ⟨g1, fun h => absurd h hc, fun _ => ⟨?_, fun ha => absurd ha hacc⟩⟩
      rw [g2, hd]
      unfold recoveredDom
      rw [hsel0]
      by_cases hsr : st.selection.map Sel.ranges = some []
      · simp only [hsr, if_true]
        rw [childNodes_defaultFocusEl env st0.dom hw0]
        simp [hacc]
      · simp [hsr]

/-- C6, as stated, fails, in three ways. With the cached range spanning the
surface root from offset 0 to offset 1, a range that is not collapsed,
`focus()` appends a paragraph. On the empty surface with no cached range the
current range that `getRange()` derives sits in the paragraph it creates, not
on the surface root, and the surface has gained that paragraph after
`focus()`. With no host selection object and the cached range collapsed on
the surface root, `focus()` appends the paragraph and the cached range stays
on the root instead of moving into the placeholder. -/
theorem focus_appends_on_uncollapsed_root_range :
    (rootSpanSt.range = some ⟨1, 0, 1, 1⟩
        ∧ Range.collapsed ⟨1, 0, 1, 1⟩ = false
        ∧ childNodes rootSpanSt.dom 1 = [2]
        ∧ (focus sampleEnv rootSpanSt).1 = Except.ok ()
        ∧ childNodes (focus sampleEnv rootSpanSt).2.dom 1 = [2, 4])
      ∧ ((mkSt emptyDom (some emptySel) none none).range = none
        ∧ (getRange sampleEnv (mkSt emptyDom (some emptySel) none none)).1
            = Except.ok ⟨2, 0, 2, 0⟩
        ∧ sampleEnv.isWysiwygDiv
            (getRange sampleEnv (mkSt emptyDom (some emptySel) none none)).2.dom 2 = false
        ∧ childNodes emptyDom 1 = []
        ∧ childNodes (focus sampleEnv (mkSt emptyDom (some emptySel) none none)).2.dom 1 = [2])
      ∧ (rootCaretNoSelectionSt.range = some ⟨1, 0, 1, 0⟩
        ∧ Range.collapsed ⟨1, 0, 1, 0⟩ = true
        ∧ (focus sampleEnv rootCaretNoSelectionSt).1 = Except.ok ()
        ∧ childNodes (focus sampleEnv rootCaretNoSelectionSt).2.dom 1 = [2, 4]
        ∧ (focus sampleEnv rootCaretNoSelectionSt).2.range = some ⟨1, 0, 1, 0⟩) :=
  ⟨⟨rfl, by decide, by decide, rfl, by decide⟩,
    ⟨rfl, rfl, by decide, by decide, by decide⟩,
    ⟨rfl, by decide, rfl, by decide, by decide⟩⟩

theorem focus_paragraph_creation_witness :
    sampleEnv.frameHidden = false ∧ sampleEnv.iframe = false
      ∧ sampleEnv.wysiwyg < rootSpanSt.dom.next
      ∧ ∃ r st0, getRange sampleEnv rootSpanSt = (Except.ok r, st0)
        ∧ (focus sampleEnv rootSpanSt).1 = Except.ok ()
        ∧ (r.startContainer = r.endContainer
            ∧ sampleEnv.isWysiwygDiv st0.dom r.startContainer = true →
          childNodes (focus sampleEnv rootSpanSt).2.dom sampleEnv.wysiwyg
              = childNodes st0.dom sampleEnv.wysiwyg ++ [st0.dom.next]) := by
  refine ⟨rfl, rfl, by decide, ?_⟩
  obtain ⟨r, st0, h1, _, h3, h4, _⟩ :=
    focus_paragraph_creation sampleEnv rootSpanSt rfl rfl (by decide)
  exact ⟨r, st0, h1, h3, fun hc => (h4 hc).1⟩

/-! ## `focusEdge` -/

/-- The end of the text of a leaf or text node is a boundary point the host
accepts. -/
theorem accepts_textLength_of_leafOrText (d : Dom) (n : NodeId)
    (h : leafOrText d n = true) : accepts d n (textLength d n) = true := by
  unfold accepts nodeLength
  cases hk : (d.nodes n).kind with
  | text =>
    simp only [decide_eq_true_eq]
    unfold textLength
    cases d.next with
    | zero => simp [textLenAux]
    | succ f => simp [textLenAux, hk]
  | element =>
    have hc : childNodes d n = [] := by
      simpa [leafOrText, hk] using h
    simp [textLength_childless d n hk hc]

theorem clampOffset_textLength (d : Dom) (n : NodeId) :
    clampOffset d n (textLength d n) = textLength d n := by
  simp [clampOffset]

theorem hostOffset_natCast_le (n : Nat) : hostOffset (n : Int) ≤ n := by
  unfold hostOffset
  omega

/-- C9, as the code has it: dispatch of `focusEdge` on a given element. When
the resolver returns a descriptor, the call is exactly the component selection
with the descriptor's target and kind: the document, the live selection and
the cache stay as they were, no caret is placed. Otherwise, when the descent
yields a leaf or text node: with a host selection object present the call
returns normally, and the live selection and the cached range are both the
collapsed range at `(node, length of its text)`, the length as the host reads
it, which is the length itself below 2^32; with no host selection object the
call raises a `TypeError` and the cached range, the live selection and the
document stay as they were. -/
theorem focusEdge_dispatch (env : Env) (st : St) (el : NodeId) :
    (∀ info, env.getFileComponent st.dom (some el) = some info →
        focusEdge env st (some el) =
          (Except.ok (), st.record (Call.selectComponent info.target info.pluginName)))
      ∧ (env.getFileComponent st.dom (some el) = none →
          ∀ leaf, env.getChildElement st.dom (some el) (leafOrText st.dom) true = some leaf →
            leafOrText st.dom leaf = true →
            Range.collapsed ⟨leaf, hostOffset (textLength st.dom leaf),
                leaf, hostOffset (textLength st.dom leaf)⟩ = true
              ∧ (textLength st.dom leaf < 4294967296 →
                  hostOffset (textLength st.dom leaf) = textLength st.dom leaf)
              ∧ (∀ sel, st.selection = some sel →
                  ∃ st1, focusEdge env st (some el) = (Except.ok (), st1)
                    ∧ st1.range =
                        some ⟨leaf, hostOffset (textLength st.dom leaf),
                          leaf, hostOffset (textLength st.dom leaf)⟩
                    ∧ st1.selection = some (sel.removeAllRanges.addRange
                        ⟨leaf, hostOffset (textLength st.dom leaf),
                          leaf, hostOffset (textLength st.dom leaf)⟩
                        env.hostHasExtentNode)
                    ∧ st1.dom = st.dom)
              ∧ (st.selection = none →
                  ∃ st1, focusEdge env st (some el) = (Except.error Err.typeError, st1)
                    ∧ st1.range = st.range ∧ st1.selection = none ∧ st1.dom = st.dom)) := by
  constructor
  · intro info hi
    simp [focusEdge, hi]
  · intro hn leaf hl hp
    have hfe : focusEdge env st (some el) =
        setRange env st (some leaf) (textLength st.dom leaf) (some leaf)
          (textLength st.dom leaf) := by
      simp [focusEdge, hn, hl]
    have hcl := clampOffset_textLength st.dom leaf
    have ha : accepts st.dom leaf (hostOffset (clampOffset st.dom leaf (textLength st.dom leaf)))
        = true := by
      rw [hcl]
      exact accepts_mono _ _ _ _ (accepts_textLength_of_leafOrText st.dom leaf hp)
        (hostOffset_natCast_le _)
    refine ⟨by simp [Range.collapsed], fun hlt => hostOffset_natCast _ hlt, ?_, ?_⟩
    · intro sel hsel
      obtain ⟨st1, h1, hd, hr, hs, _⟩ := setRange_accepted env st sel leaf
        (textLength st.dom leaf) leaf (textLength st.dom leaf) hsel ha ha
      simp only [clampedRange, hcl, hostRange_same] at hr hs
      exact ⟨st1, hfe.trans h1, hr, hs, hd⟩
    · intro hsel
      obtain ⟨st1, h1, hd, hs, hr⟩ := setRange_absent env st leaf (textLength st.dom leaf) leaf
        (textLength st.dom leaf) hsel ha ha
      exact ⟨st1, hfe.trans h1, hr, hs, hd⟩

/-- C9, as stated, fails: with no host selection object, `focusEdge` on the
paragraph of `hello`, which is no component and whose descent yields the text
node 3, raises a `TypeError`; no range is set, the cached range is still
absent. -/
theorem focusEdge_without_selection_raises :
    sampleEnv.getFileComponent helloDom (some 2) = none
      ∧ sampleEnv.getChildElement helloDom (some 2) (leafOrText helloDom) true = some 3
      ∧ leafOrText helloDom 3 = true
      ∧ (focusEdge sampleEnv (mkSt helloDom none none none) (some 2)).1
          = Except.error Err.typeError
      ∧ (focusEdge sampleEnv (mkSt helloDom none none none) (some 2)).2.range = none
      ∧ (focusEdge sampleEnv (mkSt helloDom none none none) (some 2)).2.selection = none :=
  ⟨rfl, by decide, by decide, rfl, by decide, by decide⟩

theorem focusEdge_dispatch_witness :
    componentEnv.getFileComponent figureDom (some 3) = some ⟨3, "image"⟩
      ∧ focusEdge componentEnv figureSt (some 3) =
          (Except.ok (), figureSt.record (Call.selectComponent 3 "image"))
      ∧ sampleEnv.getFileComponent helloDom (some 2) = none
      ∧ sampleEnv.getChildElement helloDom (some 2) (leafOrText helloDom) true = some 3
      ∧ leafOrText helloDom 3 = true
      ∧ textLength helloDom 3 = 5
      ∧ hostOffset (textLength helloDom 3) = 5
      ∧ ∃ st1, focusEdge sampleEnv (mkSt helloDom (some emptySel) none none) (some 2)
            = (Except.ok (), st1)
          ∧ st1.range = some ⟨3, hostOffset (textLength helloDom 3), 3,
              hostOffset (textLength helloDom 3)⟩
          ∧ st1.selection = some (emptySel.removeAllRanges.addRange
              ⟨3, hostOffset (textLength helloDom 3), 3, hostOffset (textLength helloDom 3)⟩
              sampleEnv.hostHasExtentNode)
          ∧ st1.dom = helloDom :=
  ⟨rfl, (focusEdge_dispatch componentEnv figureSt 3).1 ⟨3, "image"⟩ rfl, rfl, by decide,
    by decide, by decide, by decide,
    ((focusEdge_dispatch sampleEnv (mkSt helloDom (some emptySel) none none) 2).2 rfl 3
      (by decide) (by decide)).2.2.1 emptySel rfl⟩

end Selection
